import Mathlib

/-!
# HSR/PRP port lifecycle and frame ingress (net/hsr/hsr_slave.c)

A shallow embedding of `hsr_handle_frame`, `hsr_port_exists`, `hsr_check_dev_ok`,
`hsr_portdev_setup`, `hsr_add_port` and `hsr_del_port`.

Kernel objects reached through pointers are kept in tables: a network device is
named by its index in `World.devs`, a redundancy group (`struct hsr_priv`) by its
index in `World.groups`.  Every function returns the state it leaves behind and the
list of calls it made to the host stack and to the other HSR files, in program order.
-/

namespace Hsr

/-! ## Data model -/

/-- An Ethernet address (the six bytes read as one number). -/
abbrev eth_addr := Nat

/-- The values of `rx_handler_result_t` that the handler returns. -/
inductive rx_handler_result_t where
  | RX_HANDLER_CONSUMED
  | RX_HANDLER_PASS
deriving DecidableEq, Repr

/-- A receive hook installed on a device: the HSR handler or some other function. -/
inductive rx_handler_func_t where
  | hsr_handle_frame
  | other (fn : Nat)
deriving DecidableEq, Repr

/-- The fields of `struct hsr_port` set by `hsr_add_port` (lines 182-184): the owning
group, the device and the role.  The role is the integer value of `enum hsr_port_type`. -/
structure hsr_port where
  hsr : Nat
  dev : Nat
  type : Nat
deriving DecidableEq, Repr

/-- The fields of `struct net_device` that hsr_slave.c reads or that the host calls it
makes change.  `hsr_master` and `vlan` hold the answers of `is_hsr_master` and
`is_vlan_dev`; `refcnt` is the count moved by `dev_hold`/`dev_put`; `lro` is cleared
by `dev_disable_lro`. -/
structure net_device where
  flags : Nat
  type : Nat
  addr_len : Nat
  priv_flags : Nat
  hsr_master : Bool
  vlan : Bool
  rx_handler : Option rx_handler_func_t
  rx_handler_data : Option hsr_port
  refcnt : Int
  promiscuity : Int
  lro : Bool
  mtu : Nat
deriving DecidableEq, Repr

/-- The three statistics the handler touches, one per `INC_CNT_*_AB` macro. -/
inductive hsr_cnt where
  | own_rx
  | rx_error
  | rx
deriving DecidableEq, Repr

/-- The fields of `struct hsr_priv` used by hsr_slave.c: the port list, the protocol
version, the offload flag, the addresses of the self node and the statistics
(one counter per macro and per port type). -/
structure hsr_priv where
  ports : List hsr_port
  prot_version : Nat
  rx_offloaded : Bool
  self_node_db : List eth_addr
  cnt : hsr_cnt → Nat → Nat

/-- The fields of `struct sk_buff` the handler uses.  `mac_header` is the offset of the
MAC header from the buffer head (`none` when it was never set), `data` the offset of the
data start, `h_source` and `h_proto` the fields of `eth_hdr(skb)`. -/
structure sk_buff where
  pkt_type : Nat
  dev : Nat
  mac_header : Option Nat
  data : Int
  len : Nat
  h_source : eth_addr
  h_proto : Nat
deriving DecidableEq, Repr

/-- The kernel state: the device table and the table of redundancy groups. -/
structure World where
  devs : Nat → net_device
  groups : Nat → hsr_priv

/-- The constants and the one helper of the kernel headers and of hsr_device.c that
hsr_slave.c names and whose definitions are not among the sources; they are parameters
of the embedding.  The errno constants are the positive values, the code returns their
negations. -/
structure kenv where
  PACKET_LOOPBACK : Nat
  ETH_HLEN : Nat
  ETH_ALEN : Nat
  ETH_P_PRP : Nat
  ETH_P_HSR : Nat
  htons : Nat → Nat
  HSR_V1 : Nat
  HSR_PT_MASTER : Nat
  ARPHRD_ETHER : Nat
  IFF_LOOPBACK : Nat
  IFF_DONT_BRIDGE : Nat
  EINVAL : Int
  EOPNOTSUPP : Int
  EBUSY : Int
  ENOMEM : Int
  hsr_get_max_mtu : World → Nat → Nat

/-- The results the host gives to the three fallible calls of one attach:
whether `kzalloc` returns memory, the result of `dev_set_promiscuity(dev, 1)` and the
result of `netdev_rx_handler_register` (0 is success; on a device that already has a
receive handler the call fails all the same, see `netdev_rx_handler_register`). -/
structure host_calls where
  kzalloc : Bool
  dev_set_promiscuity : Int
  netdev_rx_handler_register : Int
deriving DecidableEq, Repr

/-- The calls made to the host stack and to the other HSR files, as they appear in
hsr_slave.c. -/
inductive kcall where
  | rcu_read_lock
  | rcu_read_unlock
  | WARN_ONCE
  | INC_CNT_OWN_RX_AB (type hsr : Nat)
  | INC_CNT_RX_ERROR_AB (type hsr : Nat)
  | INC_CNT_RX_AB (type hsr : Nat)
  | kfree_skb (skb : sk_buff)
  | skb_push (len : Nat)
  | hsr_forward_skb (skb : sk_buff) (port : hsr_port)
  | netdev_info (dev : Nat)
  | kzalloc
  | kfree (port : hsr_port)
  | dev_hold (dev : Nat)
  | dev_put (dev : Nat)
  | dev_set_promiscuity (dev : Nat) (inc : Int)
  | netdev_rx_handler_register (dev : Nat) (port : hsr_port)
  | netdev_rx_handler_unregister (dev : Nat)
  | dev_disable_lro (dev : Nat)
  | list_add_tail_rcu (port : hsr_port)
  | list_del_rcu (port : hsr_port)
  | synchronize_rcu
  | netdev_update_features (dev : Nat)
  | dev_set_mtu (dev : Nat) (mtu : Nat)
deriving DecidableEq, Repr

/-! ## Helpers that live outside hsr_slave.c -/

/-- Replace the record of one device. -/
def World.set_dev (w : World) (dev : Nat) (d : net_device) : World :=
  { w with devs := Function.update w.devs dev d }

/-- Replace the record of one group. -/
def World.set_group (w : World) (g : Nat) (h : hsr_priv) : World :=
  { w with groups := Function.update w.groups g h }

/-- Modelled from the spec: the `INC_CNT_*_AB(type, hsr)` macros of hsr_main.h, which is
not among the sources.  Section 4.3: each outcome "increments a per-port, per-outcome
counter"; the counter of kind `k` for port type `type` of group `g` goes up by one. -/
def INC_CNT (w : World) (k : hsr_cnt) (type g : Nat) : World :=
  w.set_group g { w.groups g with
    cnt := fun k2 t2 =>
      if k2 = k ∧ t2 = type then (w.groups g).cnt k2 t2 + 1 else (w.groups g).cnt k2 t2 }

/-- Modelled from the spec: `hsr_addr_is_self` of hsr_framereg.c, which is not among the
sources.  Section 4.3: the source address "equals any address the group recognizes as
self-originated (transmitted by this node on any of its ports)". -/
def hsr_addr_is_self (hsr : hsr_priv) (addr : eth_addr) : Bool :=
  hsr.self_node_db.contains addr

/-- Modelled from the spec: `hsr_port_get_hsr` of hsr_main.c, which is not among the
sources: the port of the group that has the given role, none when the group has no such
port (section 3: a Port binds an interface to a role within its group). -/
def hsr_port_get_hsr (hsr : hsr_priv) (pt : Nat) : Option hsr_port :=
  hsr.ports.find? (fun p => p.type = pt)

/-- Modelled from the spec: `is_hsr_master` of hsr_device.c, which is not among the
sources: the device "is itself already acting as the logical redundancy interface of
this or another group" (section 4.2, step 1). -/
def is_hsr_master (dev : net_device) : Bool :=
  dev.hsr_master

/-- Modelled from the spec: `is_vlan_dev` of if_vlan.h, which is not among the sources:
the device "carries VLAN tagging" (section 4.2, step 1). -/
def is_vlan_dev (dev : net_device) : Bool :=
  dev.vlan

/-- Modelled from the spec: `skb_mac_header_was_set` of skbuff.h: the frame carries a
"recoverable link-layer header position" (section 4.3). -/
def skb_mac_header_was_set (skb : sk_buff) : Bool :=
  skb.mac_header.isSome

/-- Modelled from the spec: `skb_push` of the host stack: the data start moves `len`
bytes towards the head and the frame grows by `len` bytes, which "reconstructs" the
link-layer header in front of the payload (section 4.3). -/
def skb_push (skb : sk_buff) (len : Nat) : sk_buff :=
  { skb with data := skb.data - len, len := skb.len + len }

/-- Modelled from the spec: "reference counting on an interface (acquire)" (section 6). -/
def dev_hold (w : World) (dev : Nat) : World :=
  w.set_dev dev { w.devs dev with refcnt := (w.devs dev).refcnt + 1 }

/-- Modelled from the spec: "reference counting on an interface (release)" (section 6). -/
def dev_put (w : World) (dev : Nat) : World :=
  w.set_dev dev { w.devs dev with refcnt := (w.devs dev).refcnt - 1 }

/-- Modelled from the spec: the "promiscuous-mode toggle" of the host stack (section 6).
`res` is the result the host gives when the count is raised; a failed call leaves the
count as it was, lowering the count does not fail. -/
def dev_set_promiscuity (res : Int) (w : World) (dev : Nat) (inc : Int) : Int × World :=
  if 0 < inc ∧ res ≠ 0 then (res, w)
  else (0, w.set_dev dev { w.devs dev with promiscuity := (w.devs dev).promiscuity + inc })

/-- Modelled from the spec: "ingress-hook install bound to a callback and an opaque context
pointer (the Port)" (section 6).  `res` is the result the host gives; a failed call
leaves the device as it was.  A device has one hook: the host does not give 0 on a device
that already has a receive handler, there the call fails with -EBUSY (written with `max`
so that it is an error for every value of the parameter; the errno constants are
positive). -/
def netdev_rx_handler_register (K : kenv) (res : Int) (w : World) (dev : Nat)
    (rx_handler : rx_handler_func_t) (port : hsr_port) : Int × World :=
  if res ≠ 0 then (res, w)
  else if (w.devs dev).rx_handler.isSome then (-(max K.EBUSY 1), w)
  else (0, w.set_dev dev { w.devs dev with
    rx_handler := some rx_handler, rx_handler_data := some port })

/-- Modelled from the spec: "ingress-hook uninstall" (section 6). -/
def netdev_rx_handler_unregister (w : World) (dev : Nat) : World :=
  w.set_dev dev { w.devs dev with rx_handler := none, rx_handler_data := none }

/-- Modelled from the spec: the "receive-offload-coalescing toggle" (section 6), switched
off. -/
def dev_disable_lro (w : World) (dev : Nat) : World :=
  w.set_dev dev { w.devs dev with lro := false }

/-- Append a port at the tail of the port list of group `g` (`list_add_tail_rcu`). -/
def list_add_tail_rcu (w : World) (g : Nat) (port : hsr_port) : World :=
  w.set_group g { w.groups g with ports := (w.groups g).ports ++ [port] }

/-- Unlink a port from the port list of its group (`list_del_rcu`). -/
def list_del_rcu (w : World) (port : hsr_port) : World :=
  w.set_group port.hsr { w.groups port.hsr with ports := (w.groups port.hsr).ports.erase port }

/-! ## hsr_slave.c -/

/-- Lines 83-86: the device's receive hook is `hsr_handle_frame`. -/
def hsr_port_exists (dev : net_device) : Bool :=
  dev.rx_handler = some rx_handler_func_t.hsr_handle_frame

/-- Modelled from the spec: `hsr_port_get_rcu` of hsr_slave.h, which is not among the
sources: the port a frame arrived on is the context pointer of the HSR hook of the
arrival device (section 6), none when the device carries no HSR hook. -/
def hsr_port_get_rcu (dev : net_device) : Option hsr_port :=
  if hsr_port_exists dev then dev.rx_handler_data else none

/-- What one run of the handler leaves: the value returned, the frame, the state and
the calls made. -/
structure rx_outcome where
  ret : rx_handler_result_t
  skb : sk_buff
  w : World
  ev : List kcall

/-- Lines 19-81. -/
def hsr_handle_frame (K : kenv) (w : World) (skb : sk_buff) : rx_outcome :=
  if skb.pkt_type = K.PACKET_LOOPBACK then
    ⟨.RX_HANDLER_PASS, skb, w, []⟩
  else if !skb_mac_header_was_set skb then
    ⟨.RX_HANDLER_PASS, skb, w, [.WARN_ONCE]⟩
  else
    match hsr_port_get_rcu (w.devs skb.dev) with
    | none =>
      -- finish_pass with hsr == NULL
      ⟨.RX_HANDLER_PASS, skb, w, [.rcu_read_lock, .rcu_read_unlock]⟩
    | some port =>
      let hsr := w.groups port.hsr
      if hsr_addr_is_self hsr skb.h_source then
        ⟨.RX_HANDLER_CONSUMED, skb, INC_CNT w .own_rx port.type port.hsr,
          [.rcu_read_lock, .INC_CNT_OWN_RX_AB port.type port.hsr, .kfree_skb skb,
           .rcu_read_unlock]⟩
      else if skb.h_proto ≠ K.htons K.ETH_P_PRP ∧ skb.h_proto ≠ K.htons K.ETH_P_HSR ∧
          hsr.prot_version ≤ K.HSR_V1 ∧ !hsr.rx_offloaded then
        -- finish_pass with hsr != NULL
        ⟨.RX_HANDLER_PASS, skb, INC_CNT w .rx_error port.type port.hsr,
          [.rcu_read_lock, .INC_CNT_RX_ERROR_AB port.type port.hsr, .rcu_read_unlock]⟩
      else
        let skb1 := skb_push skb K.ETH_HLEN
        if skb1.mac_header.map Int.ofNat ≠ some skb1.data then
          ⟨.RX_HANDLER_CONSUMED, skb1, INC_CNT w .rx_error port.type port.hsr,
            [.rcu_read_lock, .skb_push K.ETH_HLEN, .WARN_ONCE,
             .INC_CNT_RX_ERROR_AB port.type port.hsr, .rcu_read_unlock]⟩
        else
          ⟨.RX_HANDLER_CONSUMED, skb1, INC_CNT w .rx port.type port.hsr,
            [.rcu_read_lock, .skb_push K.ETH_HLEN, .INC_CNT_RX_AB port.type port.hsr,
             .hsr_forward_skb skb1 port, .rcu_read_unlock]⟩

/-- The condition of lines 52-53 under which a frame leaves through `finish_pass`:
no PRP or HSR ethertype, protocol version at most HSR_V1, no receive offload. -/
def untagged_gate (K : kenv) (hsr : hsr_priv) (skb : sk_buff) : Prop :=
  skb.h_proto ≠ K.htons K.ETH_P_PRP ∧ skb.h_proto ≠ K.htons K.ETH_P_HSR ∧
    hsr.prot_version ≤ K.HSR_V1 ∧ hsr.rx_offloaded = false

instance (K : kenv) (hsr : hsr_priv) (skb : sk_buff) : Decidable (untagged_gate K hsr skb) := by
  unfold untagged_gate; infer_instance

/-- Lines 88-123.  The result and the messages logged; the device is only read. -/
def hsr_check_dev_ok (K : kenv) (w : World) (dev : Nat) : Int × List kcall :=
  let d := w.devs dev
  if d.flags &&& K.IFF_LOOPBACK ≠ 0 ∨ d.type ≠ K.ARPHRD_ETHER ∨ d.addr_len ≠ K.ETH_ALEN then
    (-K.EINVAL, [.netdev_info dev])
  else if is_hsr_master d then
    (-K.EINVAL, [.netdev_info dev])
  else if hsr_port_exists d then
    (-K.EINVAL, [.netdev_info dev])
  else if is_vlan_dev d then
    (-K.EINVAL, [.netdev_info dev])
  else if d.priv_flags &&& K.IFF_DONT_BRIDGE ≠ 0 then
    (-K.EOPNOTSUPP, [.netdev_info dev])
  else
    (0, [])

/-- What `hsr_portdev_setup` leaves: its result, the state and the calls made. -/
structure setup_outcome where
  res : Int
  w : World
  ev : List kcall

/-- Lines 146-159: `hsr_portdev_setup` from the hook registration on, with the labels
`fail_rx_handler` and `fail_promiscuity`.  `pre` holds the calls made so far. -/
def hsr_portdev_setup_rx (K : kenv) (H : host_calls) (w : World) (dev : Nat)
    (port : hsr_port) (pre : List kcall) : setup_outcome :=
  let r := netdev_rx_handler_register K H.netdev_rx_handler_register w dev
    rx_handler_func_t.hsr_handle_frame port
  if r.1 ≠ 0 then
    -- fail_rx_handler
    if !(r.2.groups port.hsr).rx_offloaded then
      let q := dev_set_promiscuity H.dev_set_promiscuity r.2 dev (-1)
      -- fail_promiscuity
      ⟨r.1, dev_put q.2 dev,
        pre ++ [.netdev_rx_handler_register dev port, .dev_set_promiscuity dev (-1),
                .dev_put dev]⟩
    else
      ⟨r.1, dev_put r.2 dev, pre ++ [.netdev_rx_handler_register dev port, .dev_put dev]⟩
  else
    ⟨0, dev_disable_lro r.2 dev,
      pre ++ [.netdev_rx_handler_register dev port, .dev_disable_lro dev]⟩

/-- Lines 126-160. -/
def hsr_portdev_setup (K : kenv) (H : host_calls) (w : World) (dev : Nat)
    (port : hsr_port) : setup_outcome :=
  let w1 := dev_hold w dev
  if !(w1.groups port.hsr).rx_offloaded then
    let p := dev_set_promiscuity H.dev_set_promiscuity w1 dev 1
    if p.1 ≠ 0 then
      -- fail_promiscuity
      ⟨p.1, dev_put p.2 dev, [.dev_hold dev, .dev_set_promiscuity dev 1, .dev_put dev]⟩
    else
      hsr_portdev_setup_rx K H p.2 dev port [.dev_hold dev, .dev_set_promiscuity dev 1]
  else
    hsr_portdev_setup_rx K H w1 dev port [.dev_hold dev]

/-- What `hsr_add_port` leaves.  `ret` is the value returned; it is `none` when the call
does not return because `master->dev` (line 196) dereferences a NULL pointer. -/
structure add_outcome where
  ret : Option Int
  w : World
  ev : List kcall

/-- Lines 192-199: publication of the port and the update of the master device. -/
def hsr_add_port_publish (K : kenv) (w : World) (hsr : Nat) (port : hsr_port)
    (pre : List kcall) : add_outcome :=
  let w1 := list_add_tail_rcu w hsr port
  match hsr_port_get_hsr (w1.groups hsr) K.HSR_PT_MASTER with
  | none => ⟨none, w1, pre ++ [.list_add_tail_rcu port, .synchronize_rcu]⟩
  | some master =>
    ⟨some 0, w1,
      pre ++ [.list_add_tail_rcu port, .synchronize_rcu, .netdev_update_features master.dev,
              .dev_set_mtu master.dev (K.hsr_get_max_mtu w1 hsr)]⟩

/-- Lines 174-203: `hsr_add_port` after the eligibility check. -/
def hsr_add_port_checked (K : kenv) (H : host_calls) (w : World) (hsr dev type : Nat)
    (pre : List kcall) : add_outcome :=
  match hsr_port_get_hsr (w.groups hsr) type with
  | some _ => ⟨some (-K.EBUSY), w, pre⟩
  | none =>
    if !H.kzalloc then
      ⟨some (-K.ENOMEM), w, pre ++ [.kzalloc]⟩
    else
      let port : hsr_port := ⟨hsr, dev, type⟩
      if type ≠ K.HSR_PT_MASTER then
        let s := hsr_portdev_setup K H w dev port
        if s.res ≠ 0 then
          -- fail_dev_setup
          ⟨some s.res, s.w, pre ++ [.kzalloc] ++ s.ev ++ [.kfree port]⟩
        else
          hsr_add_port_publish K s.w hsr port (pre ++ [.kzalloc] ++ s.ev)
      else
        hsr_add_port_publish K w hsr port (pre ++ [.kzalloc])

/-- Lines 162-204. -/
def hsr_add_port (K : kenv) (H : host_calls) (w : World) (hsr dev type : Nat) :
    add_outcome :=
  if type ≠ K.HSR_PT_MASTER then
    let c := hsr_check_dev_ok K w dev
    if c.1 ≠ 0 then
      ⟨some c.1, w, c.2⟩
    else
      hsr_add_port_checked K H w hsr dev type c.2
  else
    hsr_add_port_checked K H w hsr dev type []

/-- What `hsr_del_port` leaves: the state and the calls made. -/
structure del_outcome where
  w : World
  ev : List kcall

/-- Lines 206-234. -/
def hsr_del_port (K : kenv) (w : World) (port : hsr_port) : del_outcome :=
  let hsr := port.hsr
  let master := hsr_port_get_hsr (w.groups hsr) K.HSR_PT_MASTER
  let w1 := list_del_rcu w port
  if some port ≠ master then
    let ev_master : List kcall :=
      match master with
      | some m => [.netdev_update_features m.dev, .dev_set_mtu m.dev (K.hsr_get_max_mtu w1 hsr)]
      | none => []
    let w2 := netdev_rx_handler_unregister w1 port.dev
    if !(w2.groups port.hsr).rx_offloaded then
      let q := dev_set_promiscuity 0 w2 port.dev (-1)
      ⟨dev_put q.2 port.dev,
        [.list_del_rcu port] ++ ev_master ++
        [.netdev_rx_handler_unregister port.dev, .dev_set_promiscuity port.dev (-1),
         .synchronize_rcu, .dev_put port.dev, .kfree port]⟩
    else
      ⟨dev_put w2 port.dev,
        [.list_del_rcu port] ++ ev_master ++
        [.netdev_rx_handler_unregister port.dev, .synchronize_rcu, .dev_put port.dev,
         .kfree port]⟩
  else
    ⟨w1, [.list_del_rcu port, .synchronize_rcu, .kfree port]⟩

/-! ## One instance of the parameters, for evaluating the embedding -/

/-- The smallest MTU among the devices of the non-master ports, capped at 1500, less the
six bytes of the HSR tag. -/
def linux_max_mtu (w : World) (g : Nat) : Nat :=
  (((w.groups g).ports.filter (fun p => p.type ≠ 4)).foldl
    (fun m p => min (w.devs p.dev).mtu m) 1500) - 6

/-- The parameters with the values of the Linux headers (little-endian host). -/
def linux : kenv where
  PACKET_LOOPBACK := 5
  ETH_HLEN := 14
  ETH_ALEN := 6
  ETH_P_PRP := 0x88FB
  ETH_P_HSR := 0x892F
  htons := fun x => (x % 256) * 256 + (x / 256) % 256
  HSR_V1 := 1
  HSR_PT_MASTER := 4
  ARPHRD_ETHER := 1
  IFF_LOOPBACK := 8
  IFF_DONT_BRIDGE := 64
  EINVAL := 22
  EOPNOTSUPP := 95
  EBUSY := 16
  ENOMEM := 12
  hsr_get_max_mtu := linux_max_mtu

/-- A plain Ethernet device: up, not hooked, not referenced. -/
def eth_dev : net_device :=
  { flags := 0x1043, type := 1, addr_len := 6, priv_flags := 0, hsr_master := false,
    vlan := false, rx_handler := none, rx_handler_data := none, refcnt := 0,
    promiscuity := 0, lro := true, mtu := 1500 }

/-- A group with no port, version `v`, offload flag `o` and self addresses `self`. -/
def empty_group (v : Nat) (o : Bool) (self : List eth_addr) : hsr_priv :=
  { ports := [], prot_version := v, rx_offloaded := o, self_node_db := self,
    cnt := fun _ _ => 0 }

/-- A state in which every device is a plain Ethernet device and every group is empty,
HSR version 1, not offloaded. -/
def world0 : World :=
  { devs := fun _ => eth_dev, groups := fun _ => empty_group 1 false [] }

/-- A host on which every call of an attach succeeds. -/
def host_ok : host_calls :=
  { kzalloc := true, dev_set_promiscuity := 0, netdev_rx_handler_register := 0 }

/-- The master port, slave A and slave B of group 0 of `world_ab`. -/
def port_m : hsr_port := ⟨0, 0, 4⟩

/-- Slave A of group 0, on device 1. -/
def port_a : hsr_port := ⟨0, 1, 1⟩

/-- Slave B of group 0, on device 2. -/
def port_b : hsr_port := ⟨0, 2, 2⟩

/-- An attached slave device: hooked to its port, referenced, promiscuous. -/
def slave_dev (p : hsr_port) : net_device :=
  { eth_dev with
    rx_handler := some rx_handler_func_t.hsr_handle_frame, rx_handler_data := some p,
    refcnt := 1, promiscuity := 1, lro := false }

/-- A state with one group (number 0) of version `v` and offload flag `o`: master on
device 0, slave A on device 1 with address 0xA, slave B on device 2 with address 0xB. -/
def world_ab (v : Nat) (o : Bool) : World :=
  { devs := fun i =>
      if i = 0 then { eth_dev with hsr_master := true }
      else if i = 1 then slave_dev port_a
      else if i = 2 then slave_dev port_b
      else eth_dev
    groups := fun g =>
      if g = 0 then
        { ports := [port_m, port_a, port_b], prot_version := v, rx_offloaded := o,
          self_node_db := [0xA, 0xB], cnt := fun _ _ => 0 }
      else empty_group 1 false [] }

/-- A received frame on device `dev` with source address `src` and wire ethertype
`proto`, the MAC header at offset 0 and the data start right behind it. -/
def frame (dev : Nat) (src : eth_addr) (proto : Nat) : sk_buff :=
  { pkt_type := 0, dev := dev, mac_header := some 0, data := 14, len := 46,
    h_source := src, h_proto := proto }

/-- The calls `hsr_portdev_setup` makes on the path through `fail_rx_handler`
(lines 130-146 and 153-157), written out for both values of rx_offloaded. -/
def setup_calls_register_failed (offloaded : Bool) (dev : Nat) (port : hsr_port) : List kcall :=
  if offloaded then
    [kcall.dev_hold dev, kcall.netdev_rx_handler_register dev port, kcall.dev_put dev]
  else
    [kcall.dev_hold dev, kcall.dev_set_promiscuity dev 1,
     kcall.netdev_rx_handler_register dev port, kcall.dev_set_promiscuity dev (-1),
     kcall.dev_put dev]

/-- A device `hsr_check_dev_ok` turns down with -EINVAL (lines 91-111): loopback-flagged,
not Ethernet with a six-byte address, an HSR master, already hooked by HSR, or a VLAN
device. -/
def ineligible (K : kenv) (d : net_device) : Prop :=
  d.flags &&& K.IFF_LOOPBACK ≠ 0 ∨ d.type ≠ K.ARPHRD_ETHER ∨ d.addr_len ≠ K.ETH_ALEN ∨
    is_hsr_master d = true ∨ hsr_port_exists d = true ∨ is_vlan_dev d = true

instance (K : kenv) (d : net_device) : Decidable (ineligible K d) := by
  unfold ineligible; infer_instance

/-- The loopback device: flags UP, LOOPBACK and RUNNING, type ARPHRD_LOOPBACK. -/
def lo_dev : net_device :=
  { eth_dev with flags := 0x49, type := 772, mtu := 65536 }

/-- The state `world0` with the loopback device as device 9. -/
def world_lo : World :=
  world0.set_dev 9 lo_dev

/-- A call of one of the two structural operations. -/
inductive hsr_op where
  | add (H : host_calls) (hsr dev type : Nat)
  | del (port : hsr_port)

/-- The state after a sequence of `hsr_add_port` and `hsr_del_port` calls.  A call of
`hsr_add_port` that does not return (NULL dereference) ends the run in the state reached. -/
def run_ops (K : kenv) : World → List hsr_op → World
  | w, [] => w
  | w, hsr_op.add H hsr dev type :: rest =>
    match (hsr_add_port K H w hsr dev type).ret with
    | none => (hsr_add_port K H w hsr dev type).w
    | some _ => run_ops K (hsr_add_port K H w hsr dev type).w rest
  | w, hsr_op.del port :: rest => run_ops K (hsr_del_port K w port).w rest

/-- The sequences the registry invariant is stated for: every `hsr_del_port` is applied
to a port that is in the list of its group at that moment, and a Master is attached only
on a device that is an HSR master device. -/
def ops_ok (K : kenv) : World → List hsr_op → Prop
  | _, [] => True
  | w, hsr_op.add H hsr dev type :: rest =>
    (type = K.HSR_PT_MASTER → is_hsr_master (w.devs dev) = true) ∧
    (match (hsr_add_port K H w hsr dev type).ret with
     | none => True
     | some _ => ops_ok K (hsr_add_port K H w hsr dev type).w rest)
  | w, hsr_op.del port :: rest =>
    port ∈ (w.groups port.hsr).ports ∧ ops_ok K (hsr_del_port K w port).w rest

/-- The sequences of the registry claim as it is written: every `hsr_del_port` is applied
to a port that is in the list of its group at that moment, and the Master of a group is
removed only when it is the last port of the list. -/
def ops_as_claimed (K : kenv) : World → List hsr_op → Prop
  | _, [] => True
  | w, hsr_op.add H hsr dev type :: rest =>
    (match (hsr_add_port K H w hsr dev type).ret with
     | none => True
     | some _ => ops_as_claimed K (hsr_add_port K H w hsr dev type).w rest)
  | w, hsr_op.del port :: rest =>
    port ∈ (w.groups port.hsr).ports ∧
    (port.type = K.HSR_PT_MASTER → (w.groups port.hsr).ports = [port]) ∧
    ops_as_claimed K (hsr_del_port K w port).w rest

/-- The invariant kept by attach and detach: a port lies in the list of its own group; a
non-Master port sits on a hooked device that is no HSR master; a Master port sits on an
HSR master device; no two ports of a list share a device; no two non-Master ports of
different groups share a device. -/
def registry_inv (K : kenv) (w : World) : Prop :=
  (∀ g, ∀ p ∈ (w.groups g).ports, p.hsr = g) ∧
  (∀ g, ∀ p ∈ (w.groups g).ports, p.type ≠ K.HSR_PT_MASTER →
    hsr_port_exists (w.devs p.dev) = true ∧ is_hsr_master (w.devs p.dev) = false) ∧
  (∀ g, ∀ p ∈ (w.groups g).ports, p.type = K.HSR_PT_MASTER →
    is_hsr_master (w.devs p.dev) = true) ∧
  (∀ g, ((w.groups g).ports.map (fun p => p.dev)).Nodup) ∧
  (∀ g1 g2, ∀ p1 ∈ (w.groups g1).ports, ∀ p2 ∈ (w.groups g2).ports,
    p1.dev = p2.dev → p1.type ≠ K.HSR_PT_MASTER → p2.type ≠ K.HSR_PT_MASTER → g1 = g2)

/-- The state `world0` with device 0 turned into an HSR master device. -/
def world_m : World :=
  world0.set_dev 0 { eth_dev with hsr_master := true }

/-- A sequence of calls on group 0: attach the Master on device 0, slave A on device 1,
try slave B on device 1 again, attach slave B on device 2, detach slave A. -/
def demo_ops : List hsr_op :=
  [hsr_op.add host_ok 0 0 4, hsr_op.add host_ok 0 1 1, hsr_op.add host_ok 0 1 2,
   hsr_op.add host_ok 0 2 2, hsr_op.del ⟨0, 1, 1⟩]

/-- The sequences in which the Slaves go before the Master: every `hsr_add_port` call
returns, every `hsr_del_port` is applied to a port that is in the list of its group at
that moment, and a Master is detached only when it is the only port left in its list. -/
def ops_slaves_first (K : kenv) : World → List hsr_op → Prop
  | _, [] => True
  | w, hsr_op.add H hsr dev type :: rest =>
    (hsr_add_port K H w hsr dev type).ret ≠ none ∧
    ops_slaves_first K (hsr_add_port K H w hsr dev type).w rest
  | w, hsr_op.del port :: rest =>
    port ∈ (w.groups port.hsr).ports ∧
    (port.type = K.HSR_PT_MASTER → (w.groups port.hsr).ports = [port]) ∧
    ops_slaves_first K (hsr_del_port K w port).w rest

/-- Every port list that is not empty holds a Master. -/
def master_present (K : kenv) (w : World) : Prop :=
  ∀ g, (w.groups g).ports ≠ [] → ∃ m, hsr_port_get_hsr (w.groups g) K.HSR_PT_MASTER = some m

/-- The handler looked the arrival device up and found a port: the frame is not
PACKET_LOOPBACK, its MAC header is set (so line 36 is reached) and `hsr_port_get_rcu`
returns a port. -/
def arrival_resolved (K : kenv) (w : World) (skb : sk_buff) : Prop :=
  skb.pkt_type ≠ K.PACKET_LOOPBACK ∧ skb_mac_header_was_set skb = true ∧
    (hsr_port_get_rcu (w.devs skb.dev)).isSome = true

instance (K : kenv) (w : World) (skb : sk_buff) : Decidable (arrival_resolved K w skb) := by
  unfold arrival_resolved; infer_instance

/-- The first six conditions of `hsr_check_dev_ok` (lines 91-111) all met: the device is
not loopback-flagged, is of type ARPHRD_ETHER with an address of ETH_ALEN bytes, is no HSR
master, carries no HSR hook and is no VLAN device. -/
def eligible (K : kenv) (d : net_device) : Prop :=
  d.flags &&& K.IFF_LOOPBACK = 0 ∧ d.type = K.ARPHRD_ETHER ∧ d.addr_len = K.ETH_ALEN ∧
    is_hsr_master d = false ∧ hsr_port_exists d = false ∧ is_vlan_dev d = false

instance (K : kenv) (d : net_device) : Decidable (eligible K d) := by
  unfold eligible; infer_instance

/-- A plain Ethernet device with IFF_DONT_BRIDGE set. -/
def nobridge_dev : net_device :=
  { eth_dev with priv_flags := 64 }

/-- The state `world_ab` with device 6 a device with IFF_DONT_BRIDGE. -/
def world_nb : World :=
  (world_ab 1 false).set_dev 6 nobridge_dev

/-- A sequence of calls on group 0 that keeps the teardown order: attach the Master on
device 0, slave A on device 1 and slave B on device 2, detach slave A. -/
def slaves_first_ops : List hsr_op :=
  [hsr_op.add host_ok 0 0 4, hsr_op.add host_ok 0 1 1, hsr_op.add host_ok 0 2 2,
   hsr_op.del ⟨0, 1, 1⟩]

/-- The state after `hsr_add_port(hsr, dev, type)` followed by `hsr_del_port` of the
port that call creates. -/
def round_trip (K : kenv) (H : host_calls) (w : World) (hsr dev type : Nat) : World :=
  (hsr_del_port K (hsr_add_port K H w hsr dev type).w ⟨hsr, dev, type⟩).w

/-- The state `world_ab` with device 5 carrying a receive handler other than the HSR
one. -/
def world_busy : World :=
  (world_ab 1 false).set_dev 5 { eth_dev with rx_handler := some (rx_handler_func_t.other 7) }

/-! ## Facts about the helpers -/

theorem INC_CNT_devs (w : World) (k : hsr_cnt) (t g : Nat) :
    (INC_CNT w k t g).devs = w.devs := rfl

theorem INC_CNT_cnt (w : World) (k : hsr_cnt) (t g : Nat) (k2 : hsr_cnt) (t2 : Nat) :
    ((INC_CNT w k t g).groups g).cnt k2 t2 =
      if k2 = k ∧ t2 = t then (w.groups g).cnt k2 t2 + 1 else (w.groups g).cnt k2 t2 := by
  simp [INC_CNT, World.set_group]

theorem INC_CNT_other (w : World) (k : hsr_cnt) (t g g2 : Nat) (h : g2 ≠ g) :
    (INC_CNT w k t g).groups g2 = w.groups g2 := by
  simp [INC_CNT, World.set_group, Function.update_noteq h]

theorem INC_CNT_ports (w : World) (k : hsr_cnt) (t g g2 : Nat) :
    ((INC_CNT w k t g).groups g2).ports = (w.groups g2).ports := by
  by_cases h : g2 = g
  · subst h; simp [INC_CNT, World.set_group]
  · rw [INC_CNT_other w k t g g2 h]

theorem World.set_dev_devs_same (w : World) (d : Nat) (x : net_device) :
    (w.set_dev d x).devs d = x := by
  simp [World.set_dev]

theorem World.set_dev_devs_other (w : World) (d d2 : Nat) (x : net_device) (h : d2 ≠ d) :
    (w.set_dev d x).devs d2 = w.devs d2 := by
  simp [World.set_dev, Function.update_noteq h]

theorem World.set_dev_groups (w : World) (d : Nat) (x : net_device) :
    (w.set_dev d x).groups = w.groups := rfl

theorem World.set_dev_set_dev (w : World) (d : Nat) (x y : net_device) :
    (w.set_dev d x).set_dev d y = w.set_dev d y := by
  simp [World.set_dev]

theorem World.set_dev_self (w : World) (d : Nat) (x : net_device) (h : x = w.devs d) :
    w.set_dev d x = w := by
  subst h
  simp [World.set_dev]

theorem World.set_group_groups_same (w : World) (g : Nat) (x : hsr_priv) :
    (w.set_group g x).groups g = x := by
  simp [World.set_group]

theorem World.set_group_groups_other (w : World) (g g2 : Nat) (x : hsr_priv) (h : g2 ≠ g) :
    (w.set_group g x).groups g2 = w.groups g2 := by
  simp [World.set_group, Function.update_noteq h]

theorem World.set_group_devs (w : World) (g : Nat) (x : hsr_priv) :
    (w.set_group g x).devs = w.devs := rfl

/-- Taking a reference and dropping it again leaves the state as it was. -/
theorem dev_put_dev_hold (w : World) (dev : Nat) : dev_put (dev_hold w dev) dev = w := by
  unfold dev_put dev_hold
  rw [World.set_dev_devs_same, World.set_dev_set_dev]
  apply World.set_dev_self
  simp

/-- Raising the promiscuity count and lowering it again leaves the state as it was. -/
theorem dev_set_promiscuity_up_down (r1 r2 : Int) (w : World) (dev : Nat) (h : r1 = 0) :
    (dev_set_promiscuity r2 (dev_set_promiscuity r1 w dev 1).2 dev (-1)).2 = w := by
  subst h
  simp only [dev_set_promiscuity]
  have hneg : ¬ ((0 : Int) < -1 ∧ r2 ≠ 0) := fun h => absurd h.1 (by decide)
  simp only [ne_eq, not_true_eq_false, and_false, if_false]
  rw [if_neg hneg]
  simp only [World.set_dev_devs_same, World.set_dev_set_dev]
  apply World.set_dev_self
  simp

/-! ## The paths of the frame handler -/

theorem hsr_handle_frame_loopback (K : kenv) (w : World) (skb : sk_buff)
    (h1 : skb.pkt_type = K.PACKET_LOOPBACK) :
    hsr_handle_frame K w skb = ⟨rx_handler_result_t.RX_HANDLER_PASS, skb, w, []⟩ := by
  simp [hsr_handle_frame, h1]

theorem hsr_handle_frame_nomac (K : kenv) (w : World) (skb : sk_buff)
    (h1 : skb.pkt_type ≠ K.PACKET_LOOPBACK) (h2 : skb_mac_header_was_set skb = false) :
    hsr_handle_frame K w skb =
      ⟨rx_handler_result_t.RX_HANDLER_PASS, skb, w, [kcall.WARN_ONCE]⟩ := by
  simp [hsr_handle_frame, h1, h2]

theorem hsr_handle_frame_noport (K : kenv) (w : World) (skb : sk_buff)
    (h1 : skb.pkt_type ≠ K.PACKET_LOOPBACK) (h2 : skb_mac_header_was_set skb = true)
    (h3 : hsr_port_get_rcu (w.devs skb.dev) = none) :
    hsr_handle_frame K w skb =
      ⟨rx_handler_result_t.RX_HANDLER_PASS, skb, w,
        [kcall.rcu_read_lock, kcall.rcu_read_unlock]⟩ := by
  simp [hsr_handle_frame, h1, h2, h3]

theorem hsr_handle_frame_self (K : kenv) (w : World) (skb : sk_buff) (port : hsr_port)
    (h1 : skb.pkt_type ≠ K.PACKET_LOOPBACK) (h2 : skb_mac_header_was_set skb = true)
    (h3 : hsr_port_get_rcu (w.devs skb.dev) = some port)
    (h4 : hsr_addr_is_self (w.groups port.hsr) skb.h_source = true) :
    hsr_handle_frame K w skb =
      ⟨rx_handler_result_t.RX_HANDLER_CONSUMED, skb,
        INC_CNT w hsr_cnt.own_rx port.type port.hsr,
        [kcall.rcu_read_lock, kcall.INC_CNT_OWN_RX_AB port.type port.hsr,
         kcall.kfree_skb skb, kcall.rcu_read_unlock]⟩ := by
  simp [hsr_handle_frame, h1, h2, h3, h4]

theorem hsr_handle_frame_gate (K : kenv) (w : World) (skb : sk_buff) (port : hsr_port)
    (h1 : skb.pkt_type ≠ K.PACKET_LOOPBACK) (h2 : skb_mac_header_was_set skb = true)
    (h3 : hsr_port_get_rcu (w.devs skb.dev) = some port)
    (h4 : hsr_addr_is_self (w.groups port.hsr) skb.h_source = false)
    (h5 : untagged_gate K (w.groups port.hsr) skb) :
    hsr_handle_frame K w skb =
      ⟨rx_handler_result_t.RX_HANDLER_PASS, skb,
        INC_CNT w hsr_cnt.rx_error port.type port.hsr,
        [kcall.rcu_read_lock, kcall.INC_CNT_RX_ERROR_AB port.type port.hsr,
         kcall.rcu_read_unlock]⟩ := by
  obtain ⟨a, b, c, d⟩ := h5
  simp [hsr_handle_frame, h1, h2, h3, h4, a, b, c, d]

theorem hsr_handle_frame_malformed (K : kenv) (w : World) (skb : sk_buff) (port : hsr_port)
    (h1 : skb.pkt_type ≠ K.PACKET_LOOPBACK) (h2 : skb_mac_header_was_set skb = true)
    (h3 : hsr_port_get_rcu (w.devs skb.dev) = some port)
    (h4 : hsr_addr_is_self (w.groups port.hsr) skb.h_source = false)
    (h5 : ¬ untagged_gate K (w.groups port.hsr) skb)
    (h6 : skb.mac_header.map Int.ofNat ≠ some (skb.data - K.ETH_HLEN)) :
    hsr_handle_frame K w skb =
      ⟨rx_handler_result_t.RX_HANDLER_CONSUMED, skb_push skb K.ETH_HLEN,
        INC_CNT w hsr_cnt.rx_error port.type port.hsr,
        [kcall.rcu_read_lock, kcall.skb_push K.ETH_HLEN, kcall.WARN_ONCE,
         kcall.INC_CNT_RX_ERROR_AB port.type port.hsr, kcall.rcu_read_unlock]⟩ := by
  have h6b : (skb_push skb K.ETH_HLEN).mac_header.map Int.ofNat ≠
      some (skb_push skb K.ETH_HLEN).data := h6
  unfold untagged_gate at h5
  unfold hsr_handle_frame
  rw [if_neg h1]
  simp only [h2, h3, h4]
  rw [if_neg (by simp), if_neg (by simp), if_neg (by simpa using h5), if_pos h6b]

theorem hsr_handle_frame_admitted (K : kenv) (w : World) (skb : sk_buff) (port : hsr_port)
    (h1 : skb.pkt_type ≠ K.PACKET_LOOPBACK) (h2 : skb_mac_header_was_set skb = true)
    (h3 : hsr_port_get_rcu (w.devs skb.dev) = some port)
    (h4 : hsr_addr_is_self (w.groups port.hsr) skb.h_source = false)
    (h5 : ¬ untagged_gate K (w.groups port.hsr) skb)
    (h6 : skb.mac_header.map Int.ofNat = some (skb.data - K.ETH_HLEN)) :
    hsr_handle_frame K w skb =
      ⟨rx_handler_result_t.RX_HANDLER_CONSUMED, skb_push skb K.ETH_HLEN,
        INC_CNT w hsr_cnt.rx port.type port.hsr,
        [kcall.rcu_read_lock, kcall.skb_push K.ETH_HLEN,
         kcall.INC_CNT_RX_AB port.type port.hsr,
         kcall.hsr_forward_skb (skb_push skb K.ETH_HLEN) port, kcall.rcu_read_unlock]⟩ := by
  have h6b : ¬ (skb_push skb K.ETH_HLEN).mac_header.map Int.ofNat ≠
      some (skb_push skb K.ETH_HLEN).data := not_not.mpr h6
  unfold untagged_gate at h5
  unfold hsr_handle_frame
  rw [if_neg h1]
  simp only [h2, h3, h4]
  rw [if_neg (by simp), if_neg (by simp), if_neg (by simpa using h5), if_neg h6b]

/-! ## The frame handler -/

/-- C1: a frame that is not PACKET_LOOPBACK, has its MAC header set and arrives on a device
that resolves to a port, and whose source address the port's group recognises as its
own, is consumed whatever its ethertype, the protocol version and rx_offloaded are: the
frame is freed, hsr_forward_skb is not called, only the own-rx counter of the arrival
port's type goes up (by one) and RX_HANDLER_CONSUMED is returned.  The arrival port is
arbitrary, so this covers a source address owned by port A arriving on port B. -/
theorem hsr_handle_frame_own_origin (K : kenv) (w : World) (skb : sk_buff) (port : hsr_port)
    (hloop : skb.pkt_type ≠ K.PACKET_LOOPBACK)
    (hmac : skb_mac_header_was_set skb = true)
    (hport : hsr_port_get_rcu (w.devs skb.dev) = some port)
    (hself : hsr_addr_is_self (w.groups port.hsr) skb.h_source = true) :
    (hsr_handle_frame K w skb).ret = rx_handler_result_t.RX_HANDLER_CONSUMED ∧
    (hsr_handle_frame K w skb).ev =
      [kcall.rcu_read_lock, kcall.INC_CNT_OWN_RX_AB port.type port.hsr, kcall.kfree_skb skb,
       kcall.rcu_read_unlock] ∧
    (∀ s p, kcall.hsr_forward_skb s p ∉ (hsr_handle_frame K w skb).ev) ∧
    (hsr_handle_frame K w skb).skb = skb ∧
    (hsr_handle_frame K w skb).w = INC_CNT w hsr_cnt.own_rx port.type port.hsr ∧
    (∀ k t, (((hsr_handle_frame K w skb).w).groups port.hsr).cnt k t =
      if k = hsr_cnt.own_rx ∧ t = port.type then (w.groups port.hsr).cnt k t + 1
      else (w.groups port.hsr).cnt k t) := by
  have h : hsr_handle_frame K w skb =
      ⟨rx_handler_result_t.RX_HANDLER_CONSUMED, skb,
        INC_CNT w hsr_cnt.own_rx port.type port.hsr,
        [kcall.rcu_read_lock, kcall.INC_CNT_OWN_RX_AB port.type port.hsr,
         kcall.kfree_skb skb, kcall.rcu_read_unlock]⟩ := by
    simp [hsr_handle_frame, hloop, hmac, hport, hself]
  rw [h]
  refine ⟨rfl, rfl, ?_, rfl, rfl, ?_⟩
  · intro s p; simp
  · intro k t; exact INC_CNT_cnt w _ _ _ k t

/-- Witness of C1: in `world_ab` a frame with the address of slave A as source arrives on
the device of slave B. -/
theorem hsr_handle_frame_own_origin_witness :
    (hsr_handle_frame linux (world_ab 1 false) (frame 2 0xA 0x0008)).ret =
        rx_handler_result_t.RX_HANDLER_CONSUMED ∧
    (hsr_handle_frame linux (world_ab 1 false) (frame 2 0xA 0x0008)).ev =
      [kcall.rcu_read_lock, kcall.INC_CNT_OWN_RX_AB port_b.type port_b.hsr,
       kcall.kfree_skb (frame 2 0xA 0x0008), kcall.rcu_read_unlock] :=
  have h := hsr_handle_frame_own_origin linux (world_ab 1 false) (frame 2 0xA 0x0008) port_b
    (by decide) (by decide) (by decide) (by decide)
  ⟨h.1, h.2.1⟩

/-- Counterexample to C2 as stated: under HSR version 1 without offload an untagged
frame (ethertype 0x0800) that meets every condition of the claim is passed on and not
forwarded, and the same frame under version 2 is consumed and forwarded. -/
theorem hsr_handle_frame_untagged_counterexample :
    (frame 2 0xC 0x0008).pkt_type ≠ linux.PACKET_LOOPBACK ∧
    (frame 2 0xC 0x0008).mac_header = some 0 ∧
    ((0 : Nat) : Int) = (frame 2 0xC 0x0008).data - linux.ETH_HLEN ∧
    hsr_port_get_rcu ((world_ab 1 false).devs 2) = some port_b ∧
    hsr_port_get_rcu ((world_ab 2 false).devs 2) = some port_b ∧
    hsr_addr_is_self ((world_ab 1 false).groups 0) 0xC = false ∧
    hsr_addr_is_self ((world_ab 2 false).groups 0) 0xC = false ∧
    (frame 2 0xC 0x0008).h_proto ≠ linux.htons linux.ETH_P_PRP ∧
    (frame 2 0xC 0x0008).h_proto ≠ linux.htons linux.ETH_P_HSR ∧
    ((world_ab 1 false).groups 0).prot_version ≤ linux.HSR_V1 ∧
    ((world_ab 1 false).groups 0).rx_offloaded = false ∧
    linux.HSR_V1 < ((world_ab 2 false).groups 0).prot_version ∧
    (hsr_handle_frame linux (world_ab 1 false) (frame 2 0xC 0x0008)).ret =
      rx_handler_result_t.RX_HANDLER_PASS ∧
    (hsr_handle_frame linux (world_ab 1 false) (frame 2 0xC 0x0008)).ev =
      [kcall.rcu_read_lock, kcall.INC_CNT_RX_ERROR_AB 2 0, kcall.rcu_read_unlock] ∧
    (hsr_handle_frame linux (world_ab 2 false) (frame 2 0xC 0x0008)).ret =
      rx_handler_result_t.RX_HANDLER_CONSUMED ∧
    kcall.hsr_forward_skb (skb_push (frame 2 0xC 0x0008) 14) port_b ∈
      (hsr_handle_frame linux (world_ab 2 false) (frame 2 0xC 0x0008)).ev := by
  decide

/-- C2, amended: for a frame that is not PACKET_LOOPBACK, has its MAC header set exactly
ETH_HLEN before the data start, arrives on a registered port, has a non-self source
address and an ethertype that is neither ETH_P_HSR nor ETH_P_PRP: when prot_version is
at most HSR_V1 and rx_offloaded is false the frame is passed on (RX_HANDLER_PASS, not
forwarded, frame untouched); when prot_version is above HSR_V1 the frame is admitted
(hsr_forward_skb called, RX_HANDLER_CONSUMED). -/
theorem hsr_handle_frame_untagged (K : kenv) (w : World) (skb : sk_buff) (port : hsr_port)
    (m : Nat)
    (hloop : skb.pkt_type ≠ K.PACKET_LOOPBACK)
    (hmac : skb.mac_header = some m)
    (hpos : (m : Int) = skb.data - K.ETH_HLEN)
    (hport : hsr_port_get_rcu (w.devs skb.dev) = some port)
    (hself : hsr_addr_is_self (w.groups port.hsr) skb.h_source = false)
    (hprp : skb.h_proto ≠ K.htons K.ETH_P_PRP)
    (hhsr : skb.h_proto ≠ K.htons K.ETH_P_HSR) :
    ((w.groups port.hsr).prot_version ≤ K.HSR_V1 → (w.groups port.hsr).rx_offloaded = false →
      (hsr_handle_frame K w skb).ret = rx_handler_result_t.RX_HANDLER_PASS ∧
      (hsr_handle_frame K w skb).skb = skb ∧
      (hsr_handle_frame K w skb).ev =
        [kcall.rcu_read_lock, kcall.INC_CNT_RX_ERROR_AB port.type port.hsr,
         kcall.rcu_read_unlock] ∧
      (∀ s p, kcall.hsr_forward_skb s p ∉ (hsr_handle_frame K w skb).ev)) ∧
    (K.HSR_V1 < (w.groups port.hsr).prot_version →
      (hsr_handle_frame K w skb).ret = rx_handler_result_t.RX_HANDLER_CONSUMED ∧
      (hsr_handle_frame K w skb).ev =
        [kcall.rcu_read_lock, kcall.skb_push K.ETH_HLEN,
         kcall.INC_CNT_RX_AB port.type port.hsr,
         kcall.hsr_forward_skb (skb_push skb K.ETH_HLEN) port, kcall.rcu_read_unlock]) := by
  constructor
  · intro hv ho
    simp [hsr_handle_frame, hloop, skb_mac_header_was_set, hmac, hport, hself, hprp, hhsr,
      hv, ho]
  · intro hv
    have hv2 : ¬ (w.groups port.hsr).prot_version ≤ K.HSR_V1 := Nat.not_le.mpr hv
    simp [hsr_handle_frame, hloop, skb_mac_header_was_set, hmac, hport, hself, hprp, hhsr,
      hv2, skb_push, hpos]

/-- Witness of the amended C2: the untagged frame on slave B of `world_ab`, under version
1 (passed on) and under version 2 (admitted). -/
theorem hsr_handle_frame_untagged_witness :
    (hsr_handle_frame linux (world_ab 1 false) (frame 2 0xC 0x0008)).ret =
        rx_handler_result_t.RX_HANDLER_PASS ∧
    (hsr_handle_frame linux (world_ab 2 false) (frame 2 0xC 0x0008)).ret =
        rx_handler_result_t.RX_HANDLER_CONSUMED :=
  ⟨((hsr_handle_frame_untagged linux (world_ab 1 false) (frame 2 0xC 0x0008) port_b 0
      (by decide) (by decide) (by decide) (by decide) (by decide) (by decide)
      (by decide)).1 (by decide) (by decide)).1,
   ((hsr_handle_frame_untagged linux (world_ab 2 false) (frame 2 0xC 0x0008) port_b 0
      (by decide) (by decide) (by decide) (by decide) (by decide) (by decide)
      (by decide)).2 (by decide)).1⟩

/-- Where `hsr_forward_skb` appears among the calls of the handler, the run took the
admit path (line 70): every check before it passed, the frame forwarded is the received
frame after the push, the port is the arrival port. -/
theorem hsr_forward_skb_only_when_admitted (K : kenv) (w : World) (skb s : sk_buff)
    (p : hsr_port) (h : kcall.hsr_forward_skb s p ∈ (hsr_handle_frame K w skb).ev) :
    skb.pkt_type ≠ K.PACKET_LOOPBACK ∧ skb_mac_header_was_set skb = true ∧
    hsr_port_get_rcu (w.devs skb.dev) = some p ∧
    hsr_addr_is_self (w.groups p.hsr) skb.h_source = false ∧
    ¬ untagged_gate K (w.groups p.hsr) skb ∧
    skb.mac_header.map Int.ofNat = some (skb.data - K.ETH_HLEN) ∧
    s = skb_push skb K.ETH_HLEN ∧
    (hsr_handle_frame K w skb).ret = rx_handler_result_t.RX_HANDLER_CONSUMED ∧
    (hsr_handle_frame K w skb).ev =
      [kcall.rcu_read_lock, kcall.skb_push K.ETH_HLEN, kcall.INC_CNT_RX_AB p.type p.hsr,
       kcall.hsr_forward_skb (skb_push skb K.ETH_HLEN) p, kcall.rcu_read_unlock] := by
  by_cases h1 : skb.pkt_type = K.PACKET_LOOPBACK
  · simp [hsr_handle_frame_loopback K w skb h1] at h
  by_cases h2 : skb_mac_header_was_set skb = true
  swap
  · simp [hsr_handle_frame_nomac K w skb h1 (by simpa using h2)] at h
  cases h3 : hsr_port_get_rcu (w.devs skb.dev) with
  | none => simp [hsr_handle_frame_noport K w skb h1 h2 h3] at h
  | some port =>
    by_cases h4 : hsr_addr_is_self (w.groups port.hsr) skb.h_source = true
    · simp [hsr_handle_frame_self K w skb port h1 h2 h3 h4] at h
    have h4b : hsr_addr_is_self (w.groups port.hsr) skb.h_source = false := by
      simpa using h4
    by_cases h5 : untagged_gate K (w.groups port.hsr) skb
    · simp [hsr_handle_frame_gate K w skb port h1 h2 h3 h4b h5] at h
    by_cases h6 : skb.mac_header.map Int.ofNat = some (skb.data - K.ETH_HLEN)
    swap
    · simp [hsr_handle_frame_malformed K w skb port h1 h2 h3 h4b h5 h6] at h
    · rw [hsr_handle_frame_admitted K w skb port h1 h2 h3 h4b h5 h6] at h ⊢
      simp at h
      obtain ⟨hs, hp⟩ := h
      subst hp
      subst hs
      exact ⟨h1, h2, rfl, h4b, h5, h6, rfl, rfl, rfl⟩

/-- C3: a frame that is not PACKET_LOOPBACK, has its MAC header set exactly ETH_HLEN
before the data start, arrives on a registered port, has a non-self source address and
carries ethertype ETH_P_HSR or ETH_P_PRP is admitted for every prot_version and
rx_offloaded: hsr_forward_skb is called exactly once, with the frame and the arrival
port, and RX_HANDLER_CONSUMED is returned.  Conversely, in any run of the handler a call
of hsr_forward_skb occurs only on that admit path. -/
theorem hsr_handle_frame_tagged (K : kenv) (w : World) (skb : sk_buff) (port : hsr_port)
    (m : Nat)
    (hloop : skb.pkt_type ≠ K.PACKET_LOOPBACK)
    (hmac : skb.mac_header = some m)
    (hpos : (m : Int) = skb.data - K.ETH_HLEN)
    (hport : hsr_port_get_rcu (w.devs skb.dev) = some port)
    (hself : hsr_addr_is_self (w.groups port.hsr) skb.h_source = false)
    (htag : skb.h_proto = K.htons K.ETH_P_HSR ∨ skb.h_proto = K.htons K.ETH_P_PRP) :
    (hsr_handle_frame K w skb).ret = rx_handler_result_t.RX_HANDLER_CONSUMED ∧
    (hsr_handle_frame K w skb).ev =
      [kcall.rcu_read_lock, kcall.skb_push K.ETH_HLEN,
       kcall.INC_CNT_RX_AB port.type port.hsr,
       kcall.hsr_forward_skb (skb_push skb K.ETH_HLEN) port, kcall.rcu_read_unlock] ∧
    ((hsr_handle_frame K w skb).ev.filter
      (fun c => match c with
        | kcall.hsr_forward_skb _ _ => true
        | _ => false)).length = 1 ∧
    (hsr_handle_frame K w skb).skb = skb_push skb K.ETH_HLEN ∧
    (∀ (w2 : World) (skb2 s : sk_buff) (p : hsr_port),
      kcall.hsr_forward_skb s p ∈ (hsr_handle_frame K w2 skb2).ev →
        skb2.pkt_type ≠ K.PACKET_LOOPBACK ∧ skb_mac_header_was_set skb2 = true ∧
        hsr_port_get_rcu (w2.devs skb2.dev) = some p ∧
        hsr_addr_is_self (w2.groups p.hsr) skb2.h_source = false ∧
        ¬ untagged_gate K (w2.groups p.hsr) skb2 ∧
        skb2.mac_header.map Int.ofNat = some (skb2.data - K.ETH_HLEN) ∧
        s = skb_push skb2 K.ETH_HLEN ∧
        (hsr_handle_frame K w2 skb2).ret = rx_handler_result_t.RX_HANDLER_CONSUMED) := by
  have h2 : skb_mac_header_was_set skb = true := by simp [skb_mac_header_was_set, hmac]
  have h5 : ¬ untagged_gate K (w.groups port.hsr) skb := by
    rintro ⟨a, b, _, _⟩
    rcases htag with h | h
    · exact b h
    · exact a h
  have h6 : skb.mac_header.map Int.ofNat = some (skb.data - K.ETH_HLEN) := by
    simp [hmac, hpos]
  rw [hsr_handle_frame_admitted K w skb port hloop h2 hport hself h5 h6]
  refine ⟨rfl, rfl, by simp, rfl, ?_⟩
  intro w2 skb2 s p hmem
  have h := hsr_forward_skb_only_when_admitted K w2 skb2 s p hmem
  exact ⟨h.1, h.2.1, h.2.2.1, h.2.2.2.1, h.2.2.2.2.1, h.2.2.2.2.2.1, h.2.2.2.2.2.2.1,
    h.2.2.2.2.2.2.2.1⟩

/-- Witness of C3: an HSR-tagged frame on slave B of `world_ab`, HSR version 1. -/
theorem hsr_handle_frame_tagged_witness :
    (hsr_handle_frame linux (world_ab 1 false) (frame 2 0xC 0x2F89)).ret =
        rx_handler_result_t.RX_HANDLER_CONSUMED ∧
    (hsr_handle_frame linux (world_ab 1 false) (frame 2 0xC 0x2F89)).ev =
      [kcall.rcu_read_lock, kcall.skb_push linux.ETH_HLEN,
       kcall.INC_CNT_RX_AB port_b.type port_b.hsr,
       kcall.hsr_forward_skb (skb_push (frame 2 0xC 0x2F89) linux.ETH_HLEN) port_b,
       kcall.rcu_read_unlock] :=
  have h := hsr_handle_frame_tagged linux (world_ab 1 false) (frame 2 0xC 0x2F89) port_b 0
    (by decide) (by decide) (by decide) (by decide) (by decide) (by decide)
  ⟨h.1, h.2.1⟩

/-- C4: a frame that passed the loopback, MAC-header, port-resolution, own-origin and
protocol-gate checks and whose MAC header is not at the data start after the push of
ETH_HLEN bytes is rejected as malformed: hsr_forward_skb is not called, the rx-error
counter of the arrival port's type goes up by one (one INC_CNT_RX_ERROR_AB call), no
other counter (in particular not the receive counter) changes, and
RX_HANDLER_CONSUMED is returned. -/
theorem hsr_handle_frame_malformed_rejected (K : kenv) (w : World) (skb : sk_buff)
    (port : hsr_port)
    (hloop : skb.pkt_type ≠ K.PACKET_LOOPBACK)
    (hmac : skb_mac_header_was_set skb = true)
    (hport : hsr_port_get_rcu (w.devs skb.dev) = some port)
    (hself : hsr_addr_is_self (w.groups port.hsr) skb.h_source = false)
    (hgate : ¬ untagged_gate K (w.groups port.hsr) skb)
    (hpos : (skb_push skb K.ETH_HLEN).mac_header.map Int.ofNat ≠
      some (skb_push skb K.ETH_HLEN).data) :
    (hsr_handle_frame K w skb).ret = rx_handler_result_t.RX_HANDLER_CONSUMED ∧
    (hsr_handle_frame K w skb).ev =
      [kcall.rcu_read_lock, kcall.skb_push K.ETH_HLEN, kcall.WARN_ONCE,
       kcall.INC_CNT_RX_ERROR_AB port.type port.hsr, kcall.rcu_read_unlock] ∧
    (∀ s p, kcall.hsr_forward_skb s p ∉ (hsr_handle_frame K w skb).ev) ∧
    (∀ t g, kcall.INC_CNT_RX_AB t g ∉ (hsr_handle_frame K w skb).ev) ∧
    (∀ k t, (((hsr_handle_frame K w skb).w).groups port.hsr).cnt k t =
      if k = hsr_cnt.rx_error ∧ t = port.type then (w.groups port.hsr).cnt k t + 1
      else (w.groups port.hsr).cnt k t) ∧
    (∀ t, (((hsr_handle_frame K w skb).w).groups port.hsr).cnt hsr_cnt.rx t =
      (w.groups port.hsr).cnt hsr_cnt.rx t) ∧
    (∀ g, g ≠ port.hsr → ((hsr_handle_frame K w skb).w).groups g = w.groups g) := by
  rw [hsr_handle_frame_malformed K w skb port hloop hmac hport hself hgate hpos]
  refine ⟨rfl, rfl, by simp, by simp, ?_, ?_, ?_⟩
  · intro k t; exact INC_CNT_cnt w _ _ _ k t
  · intro t; simp [INC_CNT_cnt]
  · intro g hg; exact INC_CNT_other w _ _ _ g hg

/-- Witness of C4: an HSR-tagged frame on slave B whose data start is 18 bytes behind the
MAC header. -/
theorem hsr_handle_frame_malformed_rejected_witness :
    (hsr_handle_frame linux (world_ab 1 false)
      { frame 2 0xC 0x2F89 with data := 18 }).ret = rx_handler_result_t.RX_HANDLER_CONSUMED ∧
    (∀ s p, kcall.hsr_forward_skb s p ∉ (hsr_handle_frame linux (world_ab 1 false)
      { frame 2 0xC 0x2F89 with data := 18 }).ev) :=
  have h := hsr_handle_frame_malformed_rejected linux (world_ab 1 false)
    { frame 2 0xC 0x2F89 with data := 18 } port_b
    (by decide) (by decide) (by decide) (by decide) (by decide) (by decide)
  ⟨h.1, h.2.2.1⟩

/-- C5: a frame whose pkt_type is PACKET_LOOPBACK, or whose MAC header was never set, is
passed on at once whatever the state is: RX_HANDLER_PASS is returned, the frame and the
state (all devices, all groups, all counters) are unchanged, the handler makes no call
besides the warning (no rcu_read_lock and port lookup, no kfree_skb, no
hsr_forward_skb), and the outcome does not depend on the state. -/
theorem hsr_handle_frame_early_pass (K : kenv) (w : World) (skb : sk_buff)
    (h : skb.pkt_type = K.PACKET_LOOPBACK ∨ skb_mac_header_was_set skb = false) :
    (hsr_handle_frame K w skb).ret = rx_handler_result_t.RX_HANDLER_PASS ∧
    (hsr_handle_frame K w skb).skb = skb ∧
    (hsr_handle_frame K w skb).w = w ∧
    (∀ c ∈ (hsr_handle_frame K w skb).ev, c = kcall.WARN_ONCE) ∧
    (skb.pkt_type = K.PACKET_LOOPBACK → (hsr_handle_frame K w skb).ev = []) ∧
    (∀ w2 : World, (hsr_handle_frame K w2 skb).ret = (hsr_handle_frame K w skb).ret ∧
      (hsr_handle_frame K w2 skb).ev = (hsr_handle_frame K w skb).ev ∧
      (hsr_handle_frame K w2 skb).skb = (hsr_handle_frame K w skb).skb) := by
  by_cases h1 : skb.pkt_type = K.PACKET_LOOPBACK
  · have e : ∀ w2 : World, hsr_handle_frame K w2 skb =
        ⟨rx_handler_result_t.RX_HANDLER_PASS, skb, w2, []⟩ :=
      fun w2 => hsr_handle_frame_loopback K w2 skb h1
    rw [e w]
    refine ⟨rfl, rfl, rfl, by simp, fun _ => rfl, ?_⟩
    intro w2
    rw [e w2]
    exact ⟨rfl, rfl, rfl⟩
  · have h2 : skb_mac_header_was_set skb = false := h.resolve_left h1
    have e : ∀ w2 : World, hsr_handle_frame K w2 skb =
        ⟨rx_handler_result_t.RX_HANDLER_PASS, skb, w2, [kcall.WARN_ONCE]⟩ :=
      fun w2 => hsr_handle_frame_nomac K w2 skb h1 h2
    rw [e w]
    refine ⟨rfl, rfl, rfl, by simp, fun h3 => absurd h3 h1, ?_⟩
    intro w2
    rw [e w2]
    exact ⟨rfl, rfl, rfl⟩

/-- Witness of C5: a PACKET_LOOPBACK frame on slave B of `world_ab`. -/
theorem hsr_handle_frame_early_pass_witness :
    (hsr_handle_frame linux (world_ab 1 false)
      { frame 2 0xA 0x2F89 with pkt_type := 5 }).ret = rx_handler_result_t.RX_HANDLER_PASS ∧
    (hsr_handle_frame linux (world_ab 1 false)
      { frame 2 0xA 0x2F89 with pkt_type := 5 }).ev = [] :=
  have h := hsr_handle_frame_early_pass linux (world_ab 1 false)
    { frame 2 0xA 0x2F89 with pkt_type := 5 } (Or.inl (by decide))
  ⟨h.1, h.2.2.2.2.1 (by decide)⟩

/-! ## Attach -/

theorem hsr_portdev_setup_promiscuity_failed (K : kenv) (H : host_calls) (w : World) (dev : Nat)
    (port : hsr_port) (ho : (w.groups port.hsr).rx_offloaded = false)
    (hp : H.dev_set_promiscuity ≠ 0) :
    (hsr_portdev_setup K H w dev port).res = H.dev_set_promiscuity ∧
    (hsr_portdev_setup K H w dev port).w = w ∧
    (hsr_portdev_setup K H w dev port).ev =
      [kcall.dev_hold dev, kcall.dev_set_promiscuity dev 1, kcall.dev_put dev] := by
  have ho1 : ((dev_hold w dev).groups port.hsr).rx_offloaded = false := ho
  have hd : dev_set_promiscuity H.dev_set_promiscuity (dev_hold w dev) dev 1 =
      (H.dev_set_promiscuity, dev_hold w dev) := by
    simp [dev_set_promiscuity, hp]
  simp [hsr_portdev_setup, ho1, hd, hp, dev_put_dev_hold]

/-- The path through `fail_rx_handler`: when the hook registration returns the non-zero
value `c` and leaves the state alone, `hsr_portdev_setup` returns `c` and the state is
the one before the call. -/
theorem hsr_portdev_setup_rx_failed (K : kenv) (H : host_calls) (w : World) (dev : Nat)
    (port : hsr_port) (c : Int)
    (hp : (w.groups port.hsr).rx_offloaded = true ∨ H.dev_set_promiscuity = 0)
    (hreg : ∀ w2 : World, (w2.devs dev).rx_handler = (w.devs dev).rx_handler →
      netdev_rx_handler_register K H.netdev_rx_handler_register w2 dev
        rx_handler_func_t.hsr_handle_frame port = (c, w2))
    (hc : c ≠ 0) :
    (hsr_portdev_setup K H w dev port).res = c ∧
    (hsr_portdev_setup K H w dev port).w = w ∧
    (hsr_portdev_setup K H w dev port).ev =
      setup_calls_register_failed (w.groups port.hsr).rx_offloaded dev port := by
  have hreg1 := hreg (dev_hold w dev) (by simp [dev_hold, World.set_dev_devs_same])
  cases ho : (w.groups port.hsr).rx_offloaded with
  | true =>
    have ho1 : ((dev_hold w dev).groups port.hsr).rx_offloaded = true := ho
    simp [hsr_portdev_setup, hsr_portdev_setup_rx, ho1, hreg1, hc, dev_put_dev_hold,
      setup_calls_register_failed]
  | false =>
    have hp0 : H.dev_set_promiscuity = 0 := by
      rcases hp with h | h
      · rw [ho] at h; exact absurd h (by decide)
      · exact h
    have ho1 : ((dev_hold w dev).groups port.hsr).rx_offloaded = false := ho
    have hd1 : (dev_set_promiscuity H.dev_set_promiscuity (dev_hold w dev) dev 1).1 = 0 := by
      simp [dev_set_promiscuity, hp0]
    have ho2 : (((dev_set_promiscuity H.dev_set_promiscuity (dev_hold w dev) dev 1).2).groups
        port.hsr).rx_offloaded = false := by
      simp [dev_set_promiscuity, hp0, World.set_dev_groups, ho1]
    have hreg2 := hreg (dev_set_promiscuity H.dev_set_promiscuity (dev_hold w dev) dev 1).2
      (by simp [dev_set_promiscuity, hp0, dev_hold, World.set_dev_devs_same])
    have hud := dev_set_promiscuity_up_down H.dev_set_promiscuity H.dev_set_promiscuity
      (dev_hold w dev) dev hp0
    simp [hsr_portdev_setup, hsr_portdev_setup_rx, ho1, hd1, hreg2, hc, ho2, hud,
      dev_put_dev_hold, setup_calls_register_failed]

theorem hsr_portdev_setup_register_failed (K : kenv) (H : host_calls) (w : World) (dev : Nat)
    (port : hsr_port)
    (hp : (w.groups port.hsr).rx_offloaded = true ∨ H.dev_set_promiscuity = 0)
    (hr : H.netdev_rx_handler_register ≠ 0) :
    (hsr_portdev_setup K H w dev port).res = H.netdev_rx_handler_register ∧
    (hsr_portdev_setup K H w dev port).w = w ∧
    (hsr_portdev_setup K H w dev port).ev =
      setup_calls_register_failed (w.groups port.hsr).rx_offloaded dev port := by
  apply hsr_portdev_setup_rx_failed K H w dev port _ hp _ hr
  intro w2 _
  simp [netdev_rx_handler_register, hr]

theorem busy_code_ne_zero (K : kenv) : -(max K.EBUSY 1) ≠ 0 := by
  have h : (1 : Int) ≤ max K.EBUSY 1 := le_max_right _ _
  omega

/-- On a device that already has a receive handler the registration fails also when the
host raises no error of its own: `hsr_portdev_setup` returns -EBUSY and the state is the
one before the call. -/
theorem hsr_portdev_setup_busy (K : kenv) (H : host_calls) (w : World) (dev : Nat)
    (port : hsr_port)
    (hp : (w.groups port.hsr).rx_offloaded = true ∨ H.dev_set_promiscuity = 0)
    (hr : H.netdev_rx_handler_register = 0)
    (hb : (w.devs dev).rx_handler ≠ none) :
    (hsr_portdev_setup K H w dev port).res = -(max K.EBUSY 1) ∧
    (hsr_portdev_setup K H w dev port).w = w ∧
    (hsr_portdev_setup K H w dev port).ev =
      setup_calls_register_failed (w.groups port.hsr).rx_offloaded dev port := by
  apply hsr_portdev_setup_rx_failed K H w dev port _ hp _ (busy_code_ne_zero K)
  intro w2 h2
  have hs : (w2.devs dev).rx_handler.isSome = true := by
    rw [h2]
    cases h3 : (w.devs dev).rx_handler with
    | none => exact absurd h3 hb
    | some f => rfl
  simp [netdev_rx_handler_register, hr, hs]

theorem hsr_check_dev_ok_ineligible (K : kenv) (w : World) (dev : Nat)
    (h : ineligible K (w.devs dev)) :
    hsr_check_dev_ok K w dev = (-K.EINVAL, [kcall.netdev_info dev]) := by
  unfold ineligible at h
  unfold hsr_check_dev_ok
  by_cases h1 : (w.devs dev).flags &&& K.IFF_LOOPBACK ≠ 0 ∨ (w.devs dev).type ≠ K.ARPHRD_ETHER ∨
      (w.devs dev).addr_len ≠ K.ETH_ALEN
  · simp only [h1, if_true]
  · simp only [h1, if_false]
    by_cases h2 : is_hsr_master (w.devs dev) = true
    · simp [h2]
    · by_cases h3 : hsr_port_exists (w.devs dev) = true
      · simp [h2, h3]
      · by_cases h4 : is_vlan_dev (w.devs dev) = true
        · simp [h2, h3, h4]
        · exfalso
          rcases h with h | h | h | h | h | h
          · exact h1 (Or.inl h)
          · exact h1 (Or.inr (Or.inl h))
          · exact h1 (Or.inr (Or.inr h))
          · exact h2 h
          · exact h3 h
          · exact h4 h

/-- Counterexample to C7 as stated: with role Master (4) the loopback device 9 is not
turned down; hsr_add_port returns 0 and the port list of the group holds the new port. -/
theorem hsr_add_port_ineligible_counterexample :
    (world_lo.devs 9).flags &&& linux.IFF_LOOPBACK ≠ 0 ∧
    (hsr_add_port linux host_ok world_lo 0 9 linux.HSR_PT_MASTER).ret = some 0 ∧
    (world_lo.groups 0).ports = [] ∧
    ((hsr_add_port linux host_ok world_lo 0 9 linux.HSR_PT_MASTER).w.groups 0).ports =
      [⟨0, 9, 4⟩] := by
  decide

/-- C7, amended: for every state and every role other than Master, if the device is
loopback-flagged, or is not an Ethernet device with a 6-byte address, or is an HSR
master, or already carries the HSR receive hook, or is a VLAN device, then hsr_add_port
returns -EINVAL and leaves the state (port lists, reference count, promiscuity, hook) as
it was; the only call made is the log message. -/
theorem hsr_add_port_ineligible (K : kenv) (H : host_calls) (w : World) (hsr dev type : Nat)
    (hE : K.EINVAL ≠ 0)
    (htype : type ≠ K.HSR_PT_MASTER)
    (hbad : ineligible K (w.devs dev)) :
    (hsr_add_port K H w hsr dev type).ret = some (-K.EINVAL) ∧
    (hsr_add_port K H w hsr dev type).w = w ∧
    (hsr_add_port K H w hsr dev type).ev = [kcall.netdev_info dev] := by
  have hc := hsr_check_dev_ok_ineligible K w dev hbad
  have hne : (hsr_check_dev_ok K w dev).1 ≠ 0 := by
    rw [hc]; simpa using hE
  have e : hsr_add_port K H w hsr dev type =
      ⟨some (hsr_check_dev_ok K w dev).1, w, (hsr_check_dev_ok K w dev).2⟩ := by
    unfold hsr_add_port
    rw [if_pos htype]
    dsimp only
    rw [if_pos hne]
  rw [e, hc]
  exact ⟨rfl, rfl, rfl⟩

/-- Witness of the amended C7: attaching the loopback device 9 as slave A. -/
theorem hsr_add_port_ineligible_witness :
    (hsr_add_port linux host_ok world_lo 0 9 1).ret = some (-22) ∧
    (hsr_add_port linux host_ok world_lo 0 9 1).w = world_lo :=
  have h := hsr_add_port_ineligible linux host_ok world_lo 0 9 1
    (by decide) (by decide) (by decide)
  ⟨h.1, h.2.1⟩

theorem hsr_port_get_hsr_of_mem (hsr : hsr_priv) (pt : Nat)
    (h : ∃ p ∈ hsr.ports, p.type = pt) :
    ∃ q, hsr_port_get_hsr hsr pt = some q ∧ q ∈ hsr.ports ∧ q.type = pt := by
  unfold hsr_port_get_hsr
  cases hf : hsr.ports.find? (fun p => decide (p.type = pt)) with
  | none =>
    obtain ⟨p, hp, ht⟩ := h
    have := List.find?_eq_none.mp hf p hp
    simp [ht] at this
  | some q =>
    refine ⟨q, rfl, List.mem_of_find?_eq_some hf, ?_⟩
    simpa using List.find?_some hf

theorem hsr_port_get_hsr_none (hsr : hsr_priv) (pt : Nat)
    (h : hsr_port_get_hsr hsr pt = none) : ∀ p ∈ hsr.ports, p.type ≠ pt := by
  intro p hp ht
  obtain ⟨q, hq, _, _⟩ := hsr_port_get_hsr_of_mem hsr pt ⟨p, hp, ht⟩
  rw [h] at hq
  exact absurd hq (by simp)

theorem hsr_port_get_hsr_some (hsr : hsr_priv) (pt : Nat) (q : hsr_port)
    (h : hsr_port_get_hsr hsr pt = some q) : q ∈ hsr.ports ∧ q.type = pt := by
  unfold hsr_port_get_hsr at h
  exact ⟨List.mem_of_find?_eq_some h, by simpa using List.find?_some h⟩

/-- C8: when the port list of the group already holds a port of role R, hsr_add_port for
role R returns a non-zero value for every device, which is -EBUSY when R is Master or the
device passes hsr_check_dev_ok, and it leaves the state as it was (port list, reference
count, promiscuity, hook) and publishes nothing: no second entry is added. -/
theorem hsr_add_port_role_present (K : kenv) (H : host_calls) (w : World)
    (hsr dev type : Nat)
    (hE : K.EBUSY ≠ 0)
    (hex : ∃ p ∈ (w.groups hsr).ports, p.type = type) :
    (∃ r : Int, (hsr_add_port K H w hsr dev type).ret = some r ∧ r ≠ 0 ∧
      ((type = K.HSR_PT_MASTER ∨ (hsr_check_dev_ok K w dev).1 = 0) → r = -K.EBUSY)) ∧
    (hsr_add_port K H w hsr dev type).w = w ∧
    ((hsr_add_port K H w hsr dev type).w.groups hsr).ports = (w.groups hsr).ports ∧
    (∀ p, kcall.list_add_tail_rcu p ∉ (hsr_add_port K H w hsr dev type).ev) ∧
    (∀ c ∈ (hsr_add_port K H w hsr dev type).ev, c = kcall.netdev_info dev) := by
  obtain ⟨q, hq, _, _⟩ := hsr_port_get_hsr_of_mem (w.groups hsr) type hex
  have hchk : ∀ c ∈ (hsr_check_dev_ok K w dev).2, c = kcall.netdev_info dev := by
    intro c hc
    unfold hsr_check_dev_ok at hc
    simp only [] at hc
    split_ifs at hc <;> simp_all
  have hbusy : ∀ pre, hsr_add_port_checked K H w hsr dev type pre =
      ⟨some (-K.EBUSY), w, pre⟩ := by
    intro pre; simp [hsr_add_port_checked, hq]
  by_cases ht : type = K.HSR_PT_MASTER
  · have e : hsr_add_port K H w hsr dev type = ⟨some (-K.EBUSY), w, []⟩ := by
      unfold hsr_add_port
      rw [if_neg (not_not.mpr ht)]
      exact hbusy []
    rw [e]
    exact ⟨⟨-K.EBUSY, rfl, by simpa using hE, fun _ => rfl⟩, rfl, rfl, by simp, by simp⟩
  · by_cases hc : (hsr_check_dev_ok K w dev).1 = 0
    · have e : hsr_add_port K H w hsr dev type =
          ⟨some (-K.EBUSY), w, (hsr_check_dev_ok K w dev).2⟩ := by
        simp [hsr_add_port, ht, hc, hbusy]
      rw [e]
      refine ⟨⟨-K.EBUSY, rfl, by simpa using hE, fun _ => rfl⟩, rfl, rfl, ?_, hchk⟩
      intro p hp
      have := hchk _ hp
      simp at this
    · have e : hsr_add_port K H w hsr dev type =
          ⟨some (hsr_check_dev_ok K w dev).1, w, (hsr_check_dev_ok K w dev).2⟩ := by
        simp [hsr_add_port, ht, hc]
      rw [e]
      refine ⟨⟨_, rfl, hc, ?_⟩, rfl, rfl, ?_, hchk⟩
      · rintro (h | h)
        · exact absurd h ht
        · exact absurd h hc
      · intro p hp
        have := hchk _ hp
        simp at this

/-- Witness of C8: group 0 of `world_ab` has slave A on device 1; attaching device 1
again as slave A, and attaching the unused device 5 as slave A. -/
theorem hsr_add_port_role_present_witness :
    (hsr_add_port linux host_ok (world_ab 1 false) 0 1 1).w = world_ab 1 false ∧
    (hsr_add_port linux host_ok (world_ab 1 false) 0 5 1).w = world_ab 1 false ∧
    (∃ r : Int, (hsr_add_port linux host_ok (world_ab 1 false) 0 5 1).ret = some r ∧ r ≠ 0 ∧
      ((1 = linux.HSR_PT_MASTER ∨ (hsr_check_dev_ok linux (world_ab 1 false) 5).1 = 0) →
        r = -linux.EBUSY)) :=
  ⟨(hsr_add_port_role_present linux host_ok (world_ab 1 false) 0 1 1 (by decide)
      ⟨port_a, by decide, by decide⟩).2.1,
   (hsr_add_port_role_present linux host_ok (world_ab 1 false) 0 5 1 (by decide)
      ⟨port_a, by decide, by decide⟩).2.1,
   (hsr_add_port_role_present linux host_ok (world_ab 1 false) 0 5 1 (by decide)
      ⟨port_a, by decide, by decide⟩).1⟩

/-! ## Detach -/

theorem list_del_rcu_ports (w : World) (port : hsr_port) :
    ((list_del_rcu w port).groups port.hsr).ports = (w.groups port.hsr).ports.erase port := by
  simp [list_del_rcu, World.set_group_groups_same]

theorem list_del_rcu_rx_offloaded (w : World) (port : hsr_port) (g : Nat) :
    ((list_del_rcu w port).groups g).rx_offloaded = (w.groups g).rx_offloaded := by
  by_cases h : g = port.hsr
  · subst h; simp [list_del_rcu, World.set_group_groups_same]
  · simp [list_del_rcu, World.set_group_groups_other _ _ _ _ h]

/-- C10: for a non-Master port that is a member of a group with a Master, hsr_del_port
makes exactly these calls in this order: list_del_rcu of the port;
netdev_update_features and dev_set_mtu of the Master's device, once each, the MTU
computed by hsr_get_max_mtu on the state after the removal; netdev_rx_handler_unregister
of the port's device; dev_set_promiscuity(dev, -1) if and only if rx_offloaded is false;
synchronize_rcu; dev_put of the device and kfree of the port.  The removal thus precedes
the barrier and both precede the release.  Afterwards the list is the old list with the
port erased, the device has no hook, one reference less and its promiscuity lowered by
one exactly when rx_offloaded is false. -/
theorem hsr_del_port_steps (K : kenv) (w : World) (port master : hsr_port)
    (hmem : port ∈ (w.groups port.hsr).ports)
    (hnm : port.type ≠ K.HSR_PT_MASTER)
    (hm : hsr_port_get_hsr (w.groups port.hsr) K.HSR_PT_MASTER = some master) :
    (hsr_del_port K w port).ev =
      [kcall.list_del_rcu port, kcall.netdev_update_features master.dev,
       kcall.dev_set_mtu master.dev (K.hsr_get_max_mtu (list_del_rcu w port) port.hsr),
       kcall.netdev_rx_handler_unregister port.dev] ++
      (if (w.groups port.hsr).rx_offloaded then []
       else [kcall.dev_set_promiscuity port.dev (-1)]) ++
      [kcall.synchronize_rcu, kcall.dev_put port.dev, kcall.kfree port] ∧
    ((list_del_rcu w port).groups port.hsr).ports = (w.groups port.hsr).ports.erase port ∧
    (((hsr_del_port K w port).w).groups port.hsr).ports =
      (w.groups port.hsr).ports.erase port ∧
    ((((hsr_del_port K w port).w).groups port.hsr).ports.length + 1 =
      (w.groups port.hsr).ports.length) ∧
    ((w.groups port.hsr).ports.Nodup →
      port ∉ (((hsr_del_port K w port).w).groups port.hsr).ports) ∧
    master ∈ (((hsr_del_port K w port).w).groups port.hsr).ports ∧
    (((hsr_del_port K w port).w).devs port.dev).rx_handler = none ∧
    (((hsr_del_port K w port).w).devs port.dev).refcnt = (w.devs port.dev).refcnt - 1 ∧
    (((hsr_del_port K w port).w).devs port.dev).promiscuity =
      (if (w.groups port.hsr).rx_offloaded then (w.devs port.dev).promiscuity
       else (w.devs port.dev).promiscuity - 1) := by
  obtain ⟨hmm, hmt⟩ := hsr_port_get_hsr_some _ _ _ hm
  have hne : some port ≠ some master := by
    intro h
    have : port = master := Option.some.inj h
    rw [this] at hnm
    exact hnm hmt
  have hne2 : master ≠ port := fun h => hne (by rw [h])
  have hneg : ¬ ((0 : Int) < -1 ∧ (0 : Int) ≠ 0) := fun h => absurd h.1 (by decide)
  have hports : ∀ w2 : World, w2.groups = (list_del_rcu w port).groups →
      (w2.groups port.hsr).ports = (w.groups port.hsr).ports.erase port := by
    intro w2 h2
    rw [h2, list_del_rcu_ports]
  have hlen : ((w.groups port.hsr).ports.erase port).length + 1 =
      (w.groups port.hsr).ports.length := by
    rw [List.length_erase_of_mem hmem]
    have : 0 < (w.groups port.hsr).ports.length := List.length_pos_of_mem hmem
    omega
  have hnd : (w.groups port.hsr).ports.Nodup → port ∉ (w.groups port.hsr).ports.erase port :=
    fun h => h.not_mem_erase
  have hmaster : master ∈ (w.groups port.hsr).ports.erase port :=
    (List.mem_erase_of_ne hne2).mpr hmm
  cases ho : (w.groups port.hsr).rx_offloaded with
  | true =>
    have ho2 : ((netdev_rx_handler_unregister (list_del_rcu w port) port.dev).groups
        port.hsr).rx_offloaded = true := by
      simp [netdev_rx_handler_unregister, World.set_dev_groups, list_del_rcu_rx_offloaded, ho]
    have e : hsr_del_port K w port =
        ⟨dev_put (netdev_rx_handler_unregister (list_del_rcu w port) port.dev) port.dev,
         [kcall.list_del_rcu port] ++
         [kcall.netdev_update_features master.dev,
          kcall.dev_set_mtu master.dev (K.hsr_get_max_mtu (list_del_rcu w port) port.hsr)] ++
         [kcall.netdev_rx_handler_unregister port.dev, kcall.synchronize_rcu,
          kcall.dev_put port.dev, kcall.kfree port]⟩ := by
      simp [hsr_del_port, hm, hne, ho2]
    rw [e]
    have hp := hports (dev_put (netdev_rx_handler_unregister (list_del_rcu w port) port.dev)
      port.dev) rfl
    refine ⟨by simp, list_del_rcu_ports w port, hp, ?_, ?_, ?_, ?_, ?_, ?_⟩
    · simp only [hp]; exact hlen
    · simp only [hp]; exact hnd
    · simp only [hp]; exact hmaster
    · simp [dev_put, netdev_rx_handler_unregister, World.set_dev_devs_same]
    · simp [dev_put, netdev_rx_handler_unregister, World.set_dev_devs_same, list_del_rcu,
        World.set_group_devs]
    · simp [dev_put, netdev_rx_handler_unregister, World.set_dev_devs_same, list_del_rcu,
        World.set_group_devs]
  | false =>
    have ho2 : ((netdev_rx_handler_unregister (list_del_rcu w port) port.dev).groups
        port.hsr).rx_offloaded = false := by
      simp [netdev_rx_handler_unregister, World.set_dev_groups, list_del_rcu_rx_offloaded, ho]
    have e : hsr_del_port K w port =
        ⟨dev_put (dev_set_promiscuity 0
            (netdev_rx_handler_unregister (list_del_rcu w port) port.dev) port.dev (-1)).2
            port.dev,
         [kcall.list_del_rcu port] ++
         [kcall.netdev_update_features master.dev,
          kcall.dev_set_mtu master.dev (K.hsr_get_max_mtu (list_del_rcu w port) port.hsr)] ++
         [kcall.netdev_rx_handler_unregister port.dev,
          kcall.dev_set_promiscuity port.dev (-1), kcall.synchronize_rcu,
          kcall.dev_put port.dev, kcall.kfree port]⟩ := by
      simp [hsr_del_port, hm, hne, ho2]
    rw [e]
    have hp := hports (dev_put (dev_set_promiscuity 0
      (netdev_rx_handler_unregister (list_del_rcu w port) port.dev) port.dev (-1)).2
      port.dev) (by simp [dev_put, dev_set_promiscuity, World.set_dev_groups,
        netdev_rx_handler_unregister])
    refine ⟨by simp, list_del_rcu_ports w port, hp, ?_, ?_, ?_, ?_, ?_, ?_⟩
    · simp only [hp]; exact hlen
    · simp only [hp]; exact hnd
    · simp only [hp]; exact hmaster
    · simp [dev_put, dev_set_promiscuity, netdev_rx_handler_unregister,
        World.set_dev_devs_same]
    · simp [dev_put, dev_set_promiscuity, netdev_rx_handler_unregister,
        World.set_dev_devs_same, list_del_rcu, World.set_group_devs]
    · simp [dev_put, dev_set_promiscuity, netdev_rx_handler_unregister,
        World.set_dev_devs_same, list_del_rcu, World.set_group_devs]
      ring

/-- Witness of C10: detaching slave B from group 0 of `world_ab`, and detaching slave B
when it is the only slave left (slave A detached before). -/
theorem hsr_del_port_steps_witness :
    (hsr_del_port linux (world_ab 1 false) port_b).ev =
      [kcall.list_del_rcu port_b, kcall.netdev_update_features 0, kcall.dev_set_mtu 0 1494,
       kcall.netdev_rx_handler_unregister 2, kcall.dev_set_promiscuity 2 (-1),
       kcall.synchronize_rcu, kcall.dev_put 2, kcall.kfree port_b] ∧
    (((hsr_del_port linux (hsr_del_port linux (world_ab 1 true) port_a).w port_b).w).groups
      0).ports = [port_m] ∧
    (hsr_del_port linux (hsr_del_port linux (world_ab 1 true) port_a).w port_b).ev =
      [kcall.list_del_rcu port_b, kcall.netdev_update_features 0, kcall.dev_set_mtu 0 1494,
       kcall.netdev_rx_handler_unregister 2,
       kcall.synchronize_rcu, kcall.dev_put 2, kcall.kfree port_b] :=
  have h1 := hsr_del_port_steps linux (world_ab 1 false) port_b port_m
    (by decide) (by decide) (by decide)
  have h2 := hsr_del_port_steps linux (hsr_del_port linux (world_ab 1 true) port_a).w
    port_b port_m (by decide) (by decide) (by decide)
  ⟨h1.1, h2.2.2.1, h2.1⟩

/-! ## The registry invariant -/

theorem hsr_portdev_setup_ok_eq (K : kenv) (H : host_calls) (w : World) (dev : Nat)
    (port : hsr_port)
    (hp : (w.groups port.hsr).rx_offloaded = true ∨ H.dev_set_promiscuity = 0)
    (hr : H.netdev_rx_handler_register = 0)
    (hb : (w.devs dev).rx_handler = none) :
    (hsr_portdev_setup K H w dev port).res = 0 ∧
    (hsr_portdev_setup K H w dev port).w =
      dev_disable_lro (netdev_rx_handler_register K 0
        (if (w.groups port.hsr).rx_offloaded then dev_hold w dev
         else (dev_set_promiscuity 0 (dev_hold w dev) dev 1).2)
        dev rx_handler_func_t.hsr_handle_frame port).2 dev := by
  have hreg : ∀ w2 : World, (w2.devs dev).rx_handler = none →
      (netdev_rx_handler_register K 0 w2 dev
        rx_handler_func_t.hsr_handle_frame port).1 = 0 := by
    intro w2 h2; simp [netdev_rx_handler_register, h2]
  have hreg1 := hreg (dev_hold w dev) (by simp [dev_hold, World.set_dev_devs_same, hb])
  have hreg2 := hreg (dev_set_promiscuity 0 (dev_hold w dev) dev 1).2
    (by simp [dev_set_promiscuity, dev_hold, World.set_dev_devs_same, hb])
  cases ho : (w.groups port.hsr).rx_offloaded with
  | true =>
    have ho1 : ((dev_hold w dev).groups port.hsr).rx_offloaded = true := ho
    simp [hsr_portdev_setup, hsr_portdev_setup_rx, ho1, hreg1, hr]
  | false =>
    have hp0 : H.dev_set_promiscuity = 0 := by
      rcases hp with h | h
      · rw [ho] at h; exact absurd h (by decide)
      · exact h
    have ho1 : ((dev_hold w dev).groups port.hsr).rx_offloaded = false := ho
    have hd1 : (dev_set_promiscuity 0 (dev_hold w dev) dev 1).1 = 0 := by
      simp [dev_set_promiscuity]
    simp [hsr_portdev_setup, hsr_portdev_setup_rx, ho1, hd1, hreg2, hr, hp0]

theorem hsr_portdev_setup_ok (K : kenv) (H : host_calls) (w : World) (dev : Nat)
    (port : hsr_port)
    (hp : (w.groups port.hsr).rx_offloaded = true ∨ H.dev_set_promiscuity = 0)
    (hr : H.netdev_rx_handler_register = 0)
    (hb : (w.devs dev).rx_handler = none) :
    (hsr_portdev_setup K H w dev port).res = 0 ∧
    (hsr_portdev_setup K H w dev port).w.groups = w.groups ∧
    (∀ x, x ≠ dev → (hsr_portdev_setup K H w dev port).w.devs x = w.devs x) ∧
    ((hsr_portdev_setup K H w dev port).w.devs dev).hsr_master = (w.devs dev).hsr_master ∧
    ((hsr_portdev_setup K H w dev port).w.devs dev).rx_handler =
      some rx_handler_func_t.hsr_handle_frame := by
  obtain ⟨e1, e2⟩ := hsr_portdev_setup_ok_eq K H w dev port hp hr hb
  rw [e2]
  refine ⟨e1, ?_, ?_, ?_, ?_⟩
  · cases (w.groups port.hsr).rx_offloaded <;>
      simp [dev_disable_lro, netdev_rx_handler_register, dev_set_promiscuity, dev_hold,
        World.set_dev_groups, World.set_dev_devs_same, hb]
  · intro x hx
    cases (w.groups port.hsr).rx_offloaded <;>
      simp [dev_disable_lro, netdev_rx_handler_register, dev_set_promiscuity, dev_hold,
        World.set_dev_devs_other _ _ _ _ hx, World.set_dev_devs_same, hb]
  · cases (w.groups port.hsr).rx_offloaded <;>
      simp [dev_disable_lro, netdev_rx_handler_register, dev_set_promiscuity, dev_hold,
        World.set_dev_devs_same, hb]
  · cases (w.groups port.hsr).rx_offloaded <;>
      simp [dev_disable_lro, netdev_rx_handler_register, dev_set_promiscuity, dev_hold,
        World.set_dev_devs_same, hb]

/-- What `hsr_portdev_setup` does to the state: groups and the other devices are left
alone, the HSR-master property of the device is kept, on success the device had no
receive handler and now carries the HSR hook, on failure the state is the one before the
call. -/
theorem hsr_portdev_setup_state (K : kenv) (H : host_calls) (w : World) (dev : Nat)
    (port : hsr_port) :
    (hsr_portdev_setup K H w dev port).w.groups = w.groups ∧
    (∀ x, x ≠ dev → (hsr_portdev_setup K H w dev port).w.devs x = w.devs x) ∧
    ((hsr_portdev_setup K H w dev port).w.devs dev).hsr_master = (w.devs dev).hsr_master ∧
    ((hsr_portdev_setup K H w dev port).res = 0 →
      ((hsr_portdev_setup K H w dev port).w.devs dev).rx_handler =
        some rx_handler_func_t.hsr_handle_frame) ∧
    ((hsr_portdev_setup K H w dev port).res ≠ 0 → (hsr_portdev_setup K H w dev port).w = w) := by
  by_cases hp : (w.groups port.hsr).rx_offloaded = true ∨ H.dev_set_promiscuity = 0
  · by_cases hr : H.netdev_rx_handler_register = 0
    · by_cases hb : (w.devs dev).rx_handler = none
      · obtain ⟨e1, e2, e3, e4, e5⟩ := hsr_portdev_setup_ok K H w dev port hp hr hb
        exact ⟨e2, e3, e4, fun _ => e5, fun h => absurd e1 h⟩
      · obtain ⟨e1, e2, _⟩ := hsr_portdev_setup_busy K H w dev port hp hr hb
        rw [e1, e2]
        exact ⟨rfl, fun _ _ => rfl, rfl, fun h => absurd h (busy_code_ne_zero K),
          fun _ => rfl⟩
    · obtain ⟨e1, e2, _⟩ := hsr_portdev_setup_register_failed K H w dev port hp hr
      rw [e1, e2]
      exact ⟨rfl, fun _ _ => rfl, rfl, fun h => absurd h hr, fun _ => rfl⟩
  · have ho : (w.groups port.hsr).rx_offloaded = false := by
      cases h : (w.groups port.hsr).rx_offloaded with
      | true => exact absurd (Or.inl h) hp
      | false => rfl
    have hp1 : H.dev_set_promiscuity ≠ 0 := fun h => hp (Or.inr h)
    obtain ⟨e1, e2, _⟩ := hsr_portdev_setup_promiscuity_failed K H w dev port ho hp1
    rw [e1, e2]
    exact ⟨rfl, fun _ _ => rfl, rfl, fun h => absurd h hp1, fun _ => rfl⟩

theorem hsr_check_dev_ok_zero (K : kenv) (w : World) (dev : Nat) (hE : K.EINVAL ≠ 0)
    (h : (hsr_check_dev_ok K w dev).1 = 0) : ¬ ineligible K (w.devs dev) := by
  intro hbad
  rw [hsr_check_dev_ok_ineligible K w dev hbad] at h
  exact hE (by simpa using h)

theorem hsr_add_port_publish_w (K : kenv) (w : World) (hsr : Nat) (port : hsr_port)
    (pre : List kcall) :
    (hsr_add_port_publish K w hsr port pre).w = list_add_tail_rcu w hsr port := by
  unfold hsr_add_port_publish
  simp only []
  split <;> rfl

/-- The state `hsr_add_port` leaves: either the state before the call, or, the role
being free, the state in which the new port is appended to the list of the group after
a successful device setup (no setup for a Master). -/
theorem hsr_add_port_state (K : kenv) (H : host_calls) (w : World) (hsr dev type : Nat) :
    (hsr_add_port K H w hsr dev type).w = w ∨
    (hsr_port_get_hsr (w.groups hsr) type = none ∧
      ∃ w1 : World,
        (hsr_add_port K H w hsr dev type).w = list_add_tail_rcu w1 hsr ⟨hsr, dev, type⟩ ∧
        w1.groups = w.groups ∧ (∀ x, x ≠ dev → w1.devs x = w.devs x) ∧
        (w1.devs dev).hsr_master = (w.devs dev).hsr_master ∧
        (type = K.HSR_PT_MASTER → w1 = w) ∧
        (type ≠ K.HSR_PT_MASTER → (hsr_check_dev_ok K w dev).1 = 0 ∧
          (w1.devs dev).rx_handler = some rx_handler_func_t.hsr_handle_frame)) := by
  have hchecked : ∀ pre, (type = K.HSR_PT_MASTER ∨ (hsr_check_dev_ok K w dev).1 = 0) →
      ((hsr_add_port_checked K H w hsr dev type pre).w = w ∨
      (hsr_port_get_hsr (w.groups hsr) type = none ∧
        ∃ w1 : World,
          (hsr_add_port_checked K H w hsr dev type pre).w =
            list_add_tail_rcu w1 hsr ⟨hsr, dev, type⟩ ∧
          w1.groups = w.groups ∧ (∀ x, x ≠ dev → w1.devs x = w.devs x) ∧
          (w1.devs dev).hsr_master = (w.devs dev).hsr_master ∧
          (type = K.HSR_PT_MASTER → w1 = w) ∧
          (type ≠ K.HSR_PT_MASTER → (hsr_check_dev_ok K w dev).1 = 0 ∧
            (w1.devs dev).rx_handler = some rx_handler_func_t.hsr_handle_frame))) := by
    intro pre hc
    unfold hsr_add_port_checked
    cases hf : hsr_port_get_hsr (w.groups hsr) type with
    | some q => left; rfl
    | none =>
      simp only []
      by_cases hk : H.kzalloc = true
      swap
      · left; simp [hk]
      · by_cases ht : type = K.HSR_PT_MASTER
        · right
          refine ⟨trivial, w, ?_, rfl, fun _ _ => rfl, rfl, fun _ => rfl, fun h => absurd ht h⟩
          simp [hk, ht, hsr_add_port_publish_w]
        · have hc0 : (hsr_check_dev_ok K w dev).1 = 0 := hc.resolve_left ht
          obtain ⟨s1, s2, s3, s4, s5⟩ := hsr_portdev_setup_state K H w dev ⟨hsr, dev, type⟩
          by_cases hres : (hsr_portdev_setup K H w dev ⟨hsr, dev, type⟩).res = 0
          · right
            refine ⟨trivial, (hsr_portdev_setup K H w dev ⟨hsr, dev, type⟩).w, ?_, s1, s2, s3,
              fun h => absurd h ht, fun _ => ⟨hc0, s4 hres⟩⟩
            simp [hk, ht, hres, hsr_add_port_publish_w]
          · left
            simp [hk, ht, hres, s5 hres]
  unfold hsr_add_port
  by_cases ht : type = K.HSR_PT_MASTER
  · rw [if_neg (not_not.mpr ht)]
    exact hchecked [] (Or.inl ht)
  · rw [if_pos ht]
    by_cases hc : (hsr_check_dev_ok K w dev).1 = 0
    · dsimp only
      rw [if_neg (not_not.mpr hc)]
      exact hchecked _ (Or.inr hc)
    · left
      dsimp only
      rw [if_pos hc]

theorem list_add_tail_rcu_ports_same (w : World) (g : Nat) (port : hsr_port) :
    ((list_add_tail_rcu w g port).groups g).ports = (w.groups g).ports ++ [port] := by
  simp [list_add_tail_rcu, World.set_group_groups_same]

theorem list_add_tail_rcu_ports_other (w : World) (g g2 : Nat) (port : hsr_port)
    (h : g2 ≠ g) : ((list_add_tail_rcu w g port).groups g2).ports = (w.groups g2).ports := by
  simp [list_add_tail_rcu, World.set_group_groups_other _ _ _ _ h]

theorem list_add_tail_rcu_mem (w : World) (g g2 : Nat) (port p : hsr_port) :
    p ∈ ((list_add_tail_rcu w g port).groups g2).ports ↔
      p ∈ (w.groups g2).ports ∨ (g2 = g ∧ p = port) := by
  by_cases h : g2 = g
  · subst h
    rw [list_add_tail_rcu_ports_same]
    simp
  · rw [list_add_tail_rcu_ports_other _ _ _ _ h]
    simp [h]

theorem list_del_rcu_ports_other (w : World) (port : hsr_port) (g : Nat) (h : g ≠ port.hsr) :
    ((list_del_rcu w port).groups g).ports = (w.groups g).ports := by
  simp [list_del_rcu, World.set_group_groups_other _ _ _ _ h]

theorem list_del_rcu_sublist (w : World) (port : hsr_port) (g : Nat) :
    ((list_del_rcu w port).groups g).ports.Sublist (w.groups g).ports := by
  by_cases h : g = port.hsr
  · subst h
    rw [list_del_rcu_ports]
    exact List.erase_sublist _ _
  · rw [list_del_rcu_ports_other _ _ _ h]

/-- What `hsr_del_port` does to the state: the lists are those after `list_del_rcu`;
no device stops or starts being an HSR master; the devices are left alone when the port
is the Master found in the list, and otherwise only the device of the port changes. -/
theorem hsr_del_port_state (K : kenv) (w : World) (port : hsr_port) :
    (hsr_del_port K w port).w.groups = (list_del_rcu w port).groups ∧
    (∀ x, ((hsr_del_port K w port).w.devs x).hsr_master = (w.devs x).hsr_master) ∧
    ((hsr_del_port K w port).w.devs = w.devs ∨
      (some port ≠ hsr_port_get_hsr (w.groups port.hsr) K.HSR_PT_MASTER ∧
        ∀ x, x ≠ port.dev → (hsr_del_port K w port).w.devs x = w.devs x)) := by
  have hneg : ¬ ((0 : Int) < -1 ∧ (0 : Int) ≠ 0) := fun h => absurd h.1 (by decide)
  by_cases hne : some port ≠ hsr_port_get_hsr (w.groups port.hsr) K.HSR_PT_MASTER
  · cases ho : ((netdev_rx_handler_unregister (list_del_rcu w port) port.dev).groups
        port.hsr).rx_offloaded with
    | true =>
      have e : (hsr_del_port K w port).w =
          dev_put (netdev_rx_handler_unregister (list_del_rcu w port) port.dev) port.dev := by
        simp [hsr_del_port, hne, ho]
      rw [e]
      refine ⟨rfl, ?_, Or.inr ⟨hne, ?_⟩⟩
      · intro x
        by_cases hx : x = port.dev
        · subst hx
          simp [dev_put, netdev_rx_handler_unregister, World.set_dev_devs_same, list_del_rcu,
            World.set_group_devs]
        · simp [dev_put, netdev_rx_handler_unregister, World.set_dev_devs_other _ _ _ _ hx,
            list_del_rcu, World.set_group_devs]
      · intro x hx
        simp [dev_put, netdev_rx_handler_unregister, World.set_dev_devs_other _ _ _ _ hx,
          list_del_rcu, World.set_group_devs]
    | false =>
      have e : (hsr_del_port K w port).w =
          dev_put (dev_set_promiscuity 0
            (netdev_rx_handler_unregister (list_del_rcu w port) port.dev) port.dev (-1)).2
            port.dev := by
        simp [hsr_del_port, hne, ho]
      rw [e]
      refine ⟨rfl, ?_, Or.inr ⟨hne, ?_⟩⟩
      · intro x
        by_cases hx : x = port.dev
        · subst hx
          simp [dev_put, dev_set_promiscuity, netdev_rx_handler_unregister,
            World.set_dev_devs_same, list_del_rcu, World.set_group_devs]
        · simp [dev_put, dev_set_promiscuity, netdev_rx_handler_unregister,
            World.set_dev_devs_other _ _ _ _ hx, list_del_rcu, World.set_group_devs]
      · intro x hx
        simp [dev_put, dev_set_promiscuity, netdev_rx_handler_unregister,
          World.set_dev_devs_other _ _ _ _ hx, list_del_rcu, World.set_group_devs]
  · have e : (hsr_del_port K w port).w = list_del_rcu w port := by
      simp [hsr_del_port, hne]
    rw [e]
    exact ⟨rfl, fun _ => rfl, Or.inl rfl⟩

theorem registry_inv_empty (K : kenv) (w : World) (h : ∀ g, (w.groups g).ports = []) :
    registry_inv K w := by
  refine ⟨?_, ?_, ?_, ?_, ?_⟩
  · intro g p hp; rw [h g] at hp; simp at hp
  · intro g p hp; rw [h g] at hp; simp at hp
  · intro g p hp; rw [h g] at hp; simp at hp
  · intro g; rw [h g]; simp
  · intro g1 g2 p1 hp; rw [h g1] at hp; simp at hp

/-- Attach keeps the registry invariant, provided a Master is attached on an HSR master
device. -/
theorem registry_inv_add (K : kenv) (H : host_calls) (w : World) (hsr dev type : Nat)
    (hE : K.EINVAL ≠ 0) (hinv : registry_inv K w)
    (hm : type = K.HSR_PT_MASTER → is_hsr_master (w.devs dev) = true) :
    registry_inv K (hsr_add_port K H w hsr dev type).w := by
  obtain ⟨i1, i2, i3, i4, i5⟩ := hinv
  rcases hsr_add_port_state K H w hsr dev type with
    e | ⟨hfree, w1, e, hg, hdev, hmaster, htm, htn⟩
  · rw [e]; exact ⟨i1, i2, i3, i4, i5⟩
  rw [e]
  have hnone := hsr_port_get_hsr_none _ _ hfree
  have hms : ∀ x, (w1.devs x).hsr_master = (w.devs x).hsr_master := by
    intro x
    by_cases hx : x = dev
    · rw [hx]; exact hmaster
    · rw [hdev x hx]
  have helig : type ≠ K.HSR_PT_MASTER →
      is_hsr_master (w.devs dev) = false ∧ hsr_port_exists (w.devs dev) = false := by
    intro ht
    have hok := hsr_check_dev_ok_zero K w dev hE (htn ht).1
    unfold ineligible at hok
    constructor
    · cases h : is_hsr_master (w.devs dev) with
      | true => exact absurd (Or.inr (Or.inr (Or.inr (Or.inl h)))) hok
      | false => rfl
    · cases h : hsr_port_exists (w.devs dev) with
      | true => exact absurd (Or.inr (Or.inr (Or.inr (Or.inr (Or.inl h))))) hok
      | false => rfl
  -- an old port on the new device is a Master, and then the new port is a Master too
  have f1 : ∀ g, ∀ p ∈ (w.groups g).ports, p.dev = dev →
      p.type = K.HSR_PT_MASTER ∧ type = K.HSR_PT_MASTER := by
    intro g p hp hpd
    by_cases ht : type = K.HSR_PT_MASTER
    · refine ⟨?_, ht⟩
      by_contra hpt
      have h2 := (i2 g p hp hpt).2
      rw [hpd, hm ht] at h2
      exact absurd h2 (by decide)
    · exfalso
      obtain ⟨he1, he2⟩ := helig ht
      by_cases hpt : p.type = K.HSR_PT_MASTER
      · have h3 := i3 g p hp hpt
        rw [hpd, he1] at h3
        exact absurd h3 (by decide)
      · have h2 := (i2 g p hp hpt).1
        rw [hpd, he2] at h2
        exact absurd h2 (by decide)
  have f2 : ∀ p ∈ (w.groups hsr).ports, p.dev ≠ dev := by
    intro p hp hpd
    obtain ⟨a, b⟩ := f1 hsr p hp hpd
    exact hnone p hp (a.trans b.symm)
  have hgp : ∀ g, (w1.groups g).ports = (w.groups g).ports := by
    intro g; rw [hg]
  refine ⟨?_, ?_, ?_, ?_, ?_⟩
  · intro g p hp
    rcases (list_add_tail_rcu_mem w1 hsr g _ p).mp hp with h | ⟨h1, h2⟩
    · rw [hgp] at h; exact i1 g p h
    · rw [h2, h1]
  · intro g p hp hpt
    show hsr_port_exists (w1.devs p.dev) = true ∧ is_hsr_master (w1.devs p.dev) = false
    rcases (list_add_tail_rcu_mem w1 hsr g _ p).mp hp with h | ⟨h1, h2⟩
    · rw [hgp] at h
      have hpd : p.dev ≠ dev := fun hpd => hpt (f1 g p h hpd).1
      rw [hdev _ hpd]
      exact i2 g p h hpt
    · subst h2
      have ht : type ≠ K.HSR_PT_MASTER := hpt
      refine ⟨?_, ?_⟩
      · simp [hsr_port_exists, (htn ht).2]
      · have := (helig ht).1
        simp only [is_hsr_master] at this ⊢
        show (w1.devs dev).hsr_master = false
        rw [hms]; exact this
  · intro g p hp hpt
    show is_hsr_master (w1.devs p.dev) = true
    simp only [is_hsr_master]
    rw [hms]
    rcases (list_add_tail_rcu_mem w1 hsr g _ p).mp hp with h | ⟨h1, h2⟩
    · rw [hgp] at h; exact i3 g p h hpt
    · subst h2; exact hm hpt
  · intro g
    by_cases h : g = hsr
    · subst h
      rw [list_add_tail_rcu_ports_same, hgp, List.map_append, List.nodup_append]
      refine ⟨i4 g, by simp, ?_⟩
      intro a ha hb
      simp only [List.map_cons, List.map_nil, List.mem_singleton] at hb
      obtain ⟨p, hp, hpa⟩ := List.mem_map.mp ha
      exact f2 p hp (hpa.trans hb)
    · rw [list_add_tail_rcu_ports_other _ _ _ _ h, hgp]; exact i4 g
  · intro g1 g2 p1 hp1 p2 hp2 hd ht1 ht2
    rcases (list_add_tail_rcu_mem w1 hsr g1 _ p1).mp hp1 with h1 | ⟨h1, h1b⟩
    · rw [hgp] at h1
      rcases (list_add_tail_rcu_mem w1 hsr g2 _ p2).mp hp2 with h2 | ⟨h2, h2b⟩
      · rw [hgp] at h2; exact i5 g1 g2 p1 h1 p2 h2 hd ht1 ht2
      · subst h2b
        exact absurd (f1 g1 p1 h1 hd).1 ht1
    · rcases (list_add_tail_rcu_mem w1 hsr g2 _ p2).mp hp2 with h2 | ⟨h2, h2b⟩
      · rw [hgp] at h2
        subst h1b
        exact absurd (f1 g2 p2 h2 hd.symm).1 ht2
      · rw [h1, h2]

/-- Detach of a member port keeps the registry invariant. -/
theorem registry_inv_del (K : kenv) (w : World) (port : hsr_port)
    (hinv : registry_inv K w) (hmem : port ∈ (w.groups port.hsr).ports) :
    registry_inv K (hsr_del_port K w port).w := by
  obtain ⟨i1, i2, i3, i4, i5⟩ := hinv
  obtain ⟨hgr, hms, hdv⟩ := hsr_del_port_state K w port
  have hsub : ∀ g, ((hsr_del_port K w port).w.groups g).ports.Sublist (w.groups g).ports := by
    intro g; rw [hgr]; exact list_del_rcu_sublist w port g
  have hss : ∀ g, ∀ p ∈ ((hsr_del_port K w port).w.groups g).ports, p ∈ (w.groups g).ports :=
    fun g p hp => (hsub g).subset hp
  have hnd : (w.groups port.hsr).ports.Nodup := List.Nodup.of_map _ (i4 port.hsr)
  refine ⟨?_, ?_, ?_, ?_, ?_⟩
  · intro g p hp; exact i1 g p (hss g p hp)
  · intro g q hq hqt
    obtain ⟨a, b⟩ := i2 g q (hss g q hq) hqt
    refine ⟨?_, ?_⟩
    swap
    · simp only [is_hsr_master] at b ⊢
      rw [hms]; exact b
    rcases hdv with hsame | ⟨_, hother⟩
    · rw [hsame]; exact a
    · have hqd : q.dev ≠ port.dev := by
        intro hqd
        by_cases hpt : port.type = K.HSR_PT_MASTER
        · have h3 := i3 port.hsr port hmem hpt
          rw [← hqd, b] at h3
          exact absurd h3 (by decide)
        · have hg : g = port.hsr := i5 g port.hsr q (hss g q hq) port hmem hqd hqt hpt
          subst hg
          have hq0 := hss _ q hq
          have heq : q = port :=
            List.inj_on_of_nodup_map (i4 port.hsr) hq0 hmem hqd
          rw [hgr, list_del_rcu_ports, heq] at hq
          exact hnd.not_mem_erase hq
      rw [hother _ hqd]; exact a
  · intro g p hp hpt
    have h3 := i3 g p (hss g p hp) hpt
    simp only [is_hsr_master] at h3 ⊢
    rw [hms]; exact h3
  · intro g
    exact (i4 g).sublist ((hsub g).map _)
  · intro g1 g2 p1 hp1 p2 hp2 hd ht1 ht2
    exact i5 g1 g2 p1 (hss g1 p1 hp1) p2 (hss g2 p2 hp2) hd ht1 ht2

theorem registry_inv_run (K : kenv) (hE : K.EINVAL ≠ 0) (ops : List hsr_op) :
    ∀ w : World, registry_inv K w → ops_ok K w ops → registry_inv K (run_ops K w ops) := by
  induction ops with
  | nil => intro w hinv _; exact hinv
  | cons op rest ih =>
    intro w hinv hok
    cases op with
    | add H hsr dev type =>
      obtain ⟨hm, hrest⟩ := hok
      have hstep := registry_inv_add K H w hsr dev type hE hinv hm
      unfold run_ops
      cases hr : (hsr_add_port K H w hsr dev type).ret with
      | none => exact hstep
      | some r =>
        rw [hr] at hrest
        exact ih _ hstep hrest
    | del port =>
      obtain ⟨hmem, hrest⟩ := hok
      unfold run_ops
      exact ih _ (registry_inv_del K w port hinv hmem) hrest

/-- Counterexample to C9 as stated: from the state `world0`, in which every port list is
empty, attaching device 7 as Master (role 4) and then as slave A (role 1) of group 0 both
return 0 and leave two ports on device 7 in the list. -/
theorem registry_unique_counterexample :
    (∀ g, (world0.groups g).ports = []) ∧
    ops_as_claimed linux world0 [hsr_op.add host_ok 0 7 4, hsr_op.add host_ok 0 7 1] ∧
    (hsr_add_port linux host_ok world0 0 7 4).ret = some 0 ∧
    (hsr_add_port linux host_ok (hsr_add_port linux host_ok world0 0 7 4).w 0 7 1).ret =
      some 0 ∧
    ((run_ops linux world0 [hsr_op.add host_ok 0 7 4, hsr_op.add host_ok 0 7 1]).groups
      0).ports = [⟨0, 7, 4⟩, ⟨0, 7, 1⟩] ∧
    ¬ (((run_ops linux world0 [hsr_op.add host_ok 0 7 4, hsr_op.add host_ok 0 7 1]).groups
      0).ports.map (fun p => p.dev)).Nodup := by
  have h1 : (hsr_add_port linux host_ok world0 0 7 4).ret = some 0 := by decide
  have h2 : (hsr_add_port linux host_ok (hsr_add_port linux host_ok world0 0 7 4).w
      0 7 1).ret = some 0 := by decide
  refine ⟨fun _ => rfl, ?_, h1, h2, by decide, by decide⟩
  simp [ops_as_claimed, h1, h2]

/-- C9, amended: starting from a state in which every port list is empty, after every
finite sequence of hsr_add_port and hsr_del_port calls in which each hsr_del_port is
applied to a port currently in the list of its group and each Master is attached on an
HSR master device (a device for which is_hsr_master holds), no port list contains two
ports that refer to the same network device. -/
theorem registry_unique (K : kenv) (hE : K.EINVAL ≠ 0) (w : World) (ops : List hsr_op)
    (hempty : ∀ g, (w.groups g).ports = [])
    (hok : ops_ok K w ops) :
    ∀ g, (((run_ops K w ops).groups g).ports.map (fun p => p.dev)).Nodup ∧
      ∀ p ∈ ((run_ops K w ops).groups g).ports, ∀ q ∈ ((run_ops K w ops).groups g).ports,
        p.dev = q.dev → p = q := by
  have hinv := registry_inv_run K hE ops w (registry_inv_empty K w hempty) hok
  intro g
  refine ⟨hinv.2.2.2.1 g, ?_⟩
  intro p hp q hq hd
  exact List.inj_on_of_nodup_map (hinv.2.2.2.1 g) hp hq hd

/-- Witness of the amended C9: the calls of `demo_ops` from `world_m`; the second attach
of device 1 is turned down and the list ends as Master on device 0, slave B on device 2. -/
theorem registry_unique_witness :
    (((run_ops linux world_m demo_ops).groups 0).ports.map (fun p => p.dev)).Nodup ∧
    ((run_ops linux world_m demo_ops).groups 0).ports = [⟨0, 0, 4⟩, ⟨0, 2, 2⟩] :=
  have h1 : (hsr_add_port linux host_ok world_m 0 0 4).ret = some 0 := by decide
  have h2 : (hsr_add_port linux host_ok
      (hsr_add_port linux host_ok world_m 0 0 4).w 0 1 1).ret = some 0 := by decide
  have h3 : (hsr_add_port linux host_ok (hsr_add_port linux host_ok
      (hsr_add_port linux host_ok world_m 0 0 4).w 0 1 1).w 0 1 2).ret = some (-22) := by
    decide
  have h4 : (hsr_add_port linux host_ok (hsr_add_port linux host_ok
      (hsr_add_port linux host_ok (hsr_add_port linux host_ok world_m 0 0 4).w 0 1 1).w
      0 1 2).w 0 2 2).ret = some 0 := by decide
  have hok : ops_ok linux world_m demo_ops := by
    simp only [demo_ops, ops_ok, h1, h2, h3, h4]
    decide
  ⟨(registry_unique linux (by decide) world_m demo_ops (fun _ => rfl) hok 0).1, by decide⟩

/-! ## Pass-through of the frame handler -/

/-- C13: for every frame the handler passes on (RX_HANDLER_PASS), the frame is unchanged
(data start and length included), and: if the handler resolved the arrival device to a
port, then the pass came from the protocol gate (ethertype neither PRP nor HSR,
prot_version at most HSR_V1, rx_offloaded false) and exactly the rx-error counter of the
arrival port's type went up, by one, through one INC_CNT_RX_ERROR_AB call; if the pass
came from PACKET_LOOPBACK, a missing MAC header or a device without port, the state (all
counters) is unchanged and no counter call is made.  So the rx-error count is made if and
only if the device was resolved. -/
theorem hsr_handle_frame_pass_counters (K : kenv) (w : World) (skb : sk_buff)
    (hpass : (hsr_handle_frame K w skb).ret = rx_handler_result_t.RX_HANDLER_PASS) :
    (hsr_handle_frame K w skb).skb = skb ∧
    (hsr_handle_frame K w skb).skb.data = skb.data ∧
    (hsr_handle_frame K w skb).skb.len = skb.len ∧
    (∀ n, kcall.skb_push n ∉ (hsr_handle_frame K w skb).ev) ∧
    ((∃ t g, kcall.INC_CNT_RX_ERROR_AB t g ∈ (hsr_handle_frame K w skb).ev) ↔
      arrival_resolved K w skb) ∧
    (∀ port, arrival_resolved K w skb →
      hsr_port_get_rcu (w.devs skb.dev) = some port →
        untagged_gate K (w.groups port.hsr) skb ∧
        (hsr_handle_frame K w skb).ev =
          [kcall.rcu_read_lock, kcall.INC_CNT_RX_ERROR_AB port.type port.hsr,
           kcall.rcu_read_unlock] ∧
        (hsr_handle_frame K w skb).w = INC_CNT w hsr_cnt.rx_error port.type port.hsr ∧
        (∀ k t, (((hsr_handle_frame K w skb).w).groups port.hsr).cnt k t =
          if k = hsr_cnt.rx_error ∧ t = port.type then (w.groups port.hsr).cnt k t + 1
          else (w.groups port.hsr).cnt k t) ∧
        (∀ g, g ≠ port.hsr → ((hsr_handle_frame K w skb).w).groups g = w.groups g)) ∧
    (¬ arrival_resolved K w skb →
      (hsr_handle_frame K w skb).w = w ∧
      (∀ c ∈ (hsr_handle_frame K w skb).ev,
        c = kcall.WARN_ONCE ∨ c = kcall.rcu_read_lock ∨ c = kcall.rcu_read_unlock)) := by
  unfold arrival_resolved
  by_cases h1 : skb.pkt_type = K.PACKET_LOOPBACK
  · rw [hsr_handle_frame_loopback K w skb h1]
    refine ⟨rfl, rfl, rfl, by simp, ?_, ?_, ?_⟩
    · simp [h1]
    · intro port hres; exact absurd h1 hres.1
    · intro _; exact ⟨rfl, by simp⟩
  by_cases h2 : skb_mac_header_was_set skb = true
  swap
  · have h2b : skb_mac_header_was_set skb = false := by simpa using h2
    rw [hsr_handle_frame_nomac K w skb h1 h2b]
    refine ⟨rfl, rfl, rfl, by simp, ?_, ?_, ?_⟩
    · simp [h2b]
    · intro port hres; exact absurd hres.2.1 h2
    · intro _; exact ⟨rfl, by simp⟩
  cases h3 : hsr_port_get_rcu (w.devs skb.dev) with
  | none =>
    rw [hsr_handle_frame_noport K w skb h1 h2 h3]
    refine ⟨rfl, rfl, rfl, by simp, ?_, ?_, ?_⟩
    · simp
    · intro port hres; exact absurd hres.2.2 (by simp)
    · intro _; exact ⟨rfl, by simp⟩
  | some port =>
    by_cases h4 : hsr_addr_is_self (w.groups port.hsr) skb.h_source = true
    · rw [hsr_handle_frame_self K w skb port h1 h2 h3 h4] at hpass
      exact absurd hpass (fun h => rx_handler_result_t.noConfusion h)
    have h4b : hsr_addr_is_self (w.groups port.hsr) skb.h_source = false := by
      simpa using h4
    by_cases h5 : untagged_gate K (w.groups port.hsr) skb
    · rw [hsr_handle_frame_gate K w skb port h1 h2 h3 h4b h5]
      refine ⟨rfl, rfl, rfl, by simp, ?_, ?_, ?_⟩
      · simp [h1, h2]
      · intro q _ hq
        have hqp : port = q := Option.some.inj hq
        subst hqp
        refine ⟨h5, rfl, rfl, ?_, ?_⟩
        · intro k t; exact INC_CNT_cnt w _ _ _ k t
        · intro g hg; exact INC_CNT_other w _ _ _ g hg
      · intro hn
        exact absurd ⟨h1, h2, by simp⟩ hn
    · by_cases h6 : skb.mac_header.map Int.ofNat = some (skb.data - K.ETH_HLEN)
      · rw [hsr_handle_frame_admitted K w skb port h1 h2 h3 h4b h5 h6] at hpass
        exact absurd hpass (fun h => rx_handler_result_t.noConfusion h)
      · rw [hsr_handle_frame_malformed K w skb port h1 h2 h3 h4b h5 h6] at hpass
        exact absurd hpass (fun h => rx_handler_result_t.noConfusion h)

/-- Witness of C13: an untagged frame on slave B of `world_ab` under HSR version 1, which
the gate passes on. -/
theorem hsr_handle_frame_pass_counters_witness :
    (hsr_handle_frame linux (world_ab 1 false) (frame 2 0xC 0x0008)).skb =
      frame 2 0xC 0x0008 ∧
    ((∃ t g, kcall.INC_CNT_RX_ERROR_AB t g ∈
        (hsr_handle_frame linux (world_ab 1 false) (frame 2 0xC 0x0008)).ev) ↔
      arrival_resolved linux (world_ab 1 false) (frame 2 0xC 0x0008)) :=
  have h := hsr_handle_frame_pass_counters linux (world_ab 1 false) (frame 2 0xC 0x0008)
    (by decide)
  ⟨h.1, h.2.2.2.2.1⟩

/-! ## The eligibility check -/

theorem eligible_iff_not_ineligible (K : kenv) (d : net_device) :
    eligible K d ↔ ¬ ineligible K d := by
  unfold eligible ineligible
  constructor
  · rintro ⟨a, b, c, e, f, g⟩ (h | h | h | h | h | h)
    · exact h a
    · exact h b
    · exact h c
    · rw [e] at h; exact absurd h (by decide)
    · rw [f] at h; exact absurd h (by decide)
    · rw [g] at h; exact absurd h (by decide)
  · intro h
    refine ⟨?_, ?_, ?_, ?_, ?_, ?_⟩
    · by_contra a; exact h (Or.inl a)
    · by_contra a; exact h (Or.inr (Or.inl a))
    · by_contra a; exact h (Or.inr (Or.inr (Or.inl a)))
    · cases a : is_hsr_master d with
      | true => exact absurd (Or.inr (Or.inr (Or.inr (Or.inl a)))) h
      | false => rfl
    · cases a : hsr_port_exists d with
      | true => exact absurd (Or.inr (Or.inr (Or.inr (Or.inr (Or.inl a))))) h
      | false => rfl
    · cases a : is_vlan_dev d with
      | true => exact absurd (Or.inr (Or.inr (Or.inr (Or.inr (Or.inr a))))) h
      | false => rfl

theorem hsr_check_dev_ok_eligible (K : kenv) (w : World) (dev : Nat)
    (h : eligible K (w.devs dev)) :
    hsr_check_dev_ok K w dev =
      if (w.devs dev).priv_flags &&& K.IFF_DONT_BRIDGE ≠ 0 then
        (-K.EOPNOTSUPP, [kcall.netdev_info dev])
      else (0, []) := by
  obtain ⟨a, b, c, e, f, g⟩ := h
  unfold hsr_check_dev_ok
  simp [a, b, c, e, f, g]

theorem hsr_check_dev_ok_calls (K : kenv) (w : World) (dev : Nat) :
    ∀ c ∈ (hsr_check_dev_ok K w dev).2, c = kcall.netdev_info dev := by
  intro c hc
  by_cases h : eligible K (w.devs dev)
  · rw [hsr_check_dev_ok_eligible K w dev h] at hc
    split_ifs at hc <;> simp_all
  · have h2 : ineligible K (w.devs dev) := by
      by_contra h3
      exact h ((eligible_iff_not_ineligible K _).mpr h3)
    rw [hsr_check_dev_ok_ineligible K w dev h2] at hc
    simpa using hc

theorem hsr_add_port_check_failed (K : kenv) (H : host_calls) (w : World)
    (hsr dev type : Nat) (htype : type ≠ K.HSR_PT_MASTER)
    (hne : (hsr_check_dev_ok K w dev).1 ≠ 0) :
    hsr_add_port K H w hsr dev type =
      ⟨some (hsr_check_dev_ok K w dev).1, w, (hsr_check_dev_ok K w dev).2⟩ := by
  unfold hsr_add_port
  rw [if_pos htype]
  dsimp only
  rw [if_pos hne]

/-- C15: with distinct non-zero errno values, hsr_check_dev_ok returns 0 exactly when the
device is not loopback-flagged, has type ARPHRD_ETHER and addr_len ETH_ALEN, is no HSR
master, has no HSR hook, is no VLAN device and has IFF_DONT_BRIDGE clear; it returns
-EOPNOTSUPP exactly when the first six conditions hold and IFF_DONT_BRIDGE is set; it
returns -EINVAL exactly when one of the first six conditions fails, whatever
IFF_DONT_BRIDGE is.  It only reads the device (its result carries no state; its only
calls are log messages).  In hsr_add_port, for a non-Master role, a non-zero result is
returned at once, before the role lookup: the state is unchanged and the result is the
same whether or not the role is already present. -/
theorem hsr_check_dev_ok_exact (K : kenv) (w : World) (dev : Nat)
    (hE1 : K.EINVAL ≠ 0) (hE2 : K.EOPNOTSUPP ≠ 0) (hE3 : K.EINVAL ≠ K.EOPNOTSUPP) :
    ((hsr_check_dev_ok K w dev).1 = 0 ↔
      eligible K (w.devs dev) ∧ (w.devs dev).priv_flags &&& K.IFF_DONT_BRIDGE = 0) ∧
    ((hsr_check_dev_ok K w dev).1 = -K.EOPNOTSUPP ↔
      eligible K (w.devs dev) ∧ (w.devs dev).priv_flags &&& K.IFF_DONT_BRIDGE ≠ 0) ∧
    ((hsr_check_dev_ok K w dev).1 = -K.EINVAL ↔ ¬ eligible K (w.devs dev)) ∧
    ((hsr_check_dev_ok K w dev).1 = 0 ∨ (hsr_check_dev_ok K w dev).1 = -K.EOPNOTSUPP ∨
      (hsr_check_dev_ok K w dev).1 = -K.EINVAL) ∧
    (∀ c ∈ (hsr_check_dev_ok K w dev).2, c = kcall.netdev_info dev) ∧
    (∀ (H : host_calls) (hsr type : Nat), type ≠ K.HSR_PT_MASTER →
      (hsr_check_dev_ok K w dev).1 ≠ 0 →
        (hsr_add_port K H w hsr dev type).ret = some (hsr_check_dev_ok K w dev).1 ∧
        (hsr_add_port K H w hsr dev type).w = w ∧
        (hsr_add_port K H w hsr dev type).ev = (hsr_check_dev_ok K w dev).2) := by
  have hlast : ∀ (H : host_calls) (hsr type : Nat), type ≠ K.HSR_PT_MASTER →
      (hsr_check_dev_ok K w dev).1 ≠ 0 →
        (hsr_add_port K H w hsr dev type).ret = some (hsr_check_dev_ok K w dev).1 ∧
        (hsr_add_port K H w hsr dev type).w = w ∧
        (hsr_add_port K H w hsr dev type).ev = (hsr_check_dev_ok K w dev).2 := by
    intro H hsr type ht hne
    rw [hsr_add_port_check_failed K H w hsr dev type ht hne]
    exact ⟨rfl, rfl, rfl⟩
  refine ⟨?_, ?_, ?_, ?_, hsr_check_dev_ok_calls K w dev, hlast⟩
  all_goals
    by_cases h : eligible K (w.devs dev)
    · rw [hsr_check_dev_ok_eligible K w dev h]
      by_cases hb : (w.devs dev).priv_flags &&& K.IFF_DONT_BRIDGE = 0
      · simp [h, hb, hE1, hE2, Ne.symm hE2]
      · simp [h, hb, hE1, hE2, hE3, Ne.symm hE3]
    · have h2 : ineligible K (w.devs dev) := by
        by_contra h3
        exact h ((eligible_iff_not_ineligible K _).mpr h3)
      rw [hsr_check_dev_ok_ineligible K w dev h2]
      simp [h, hE1, hE3]

/-- Witness of C15: the plain device 5, the device 6 with IFF_DONT_BRIDGE and the hooked
device 1 of `world_nb`; attaching device 6 as slave A, a role that is already present,
returns -EOPNOTSUPP and not -EBUSY. -/
theorem hsr_check_dev_ok_exact_witness :
    (hsr_check_dev_ok linux world_nb 5).1 = 0 ∧
    (hsr_check_dev_ok linux world_nb 6).1 = -95 ∧
    (hsr_check_dev_ok linux world_nb 1).1 = -22 ∧
    (hsr_add_port linux host_ok world_nb 0 6 1).ret = some (-95) ∧
    (hsr_add_port linux host_ok world_nb 0 6 1).w = world_nb :=
  have h5 := hsr_check_dev_ok_exact linux world_nb 5 (by decide) (by decide) (by decide)
  have h6 := hsr_check_dev_ok_exact linux world_nb 6 (by decide) (by decide) (by decide)
  have h1 := hsr_check_dev_ok_exact linux world_nb 1 (by decide) (by decide) (by decide)
  have ha := h6.2.2.2.2.2 host_ok 0 1 (by decide) (by decide)
  ⟨h5.1.mpr (by decide), h6.2.1.mpr (by decide), h1.2.2.1.mpr (by decide), ha.1, ha.2.1⟩

/-! ## Publication of a port -/

theorem hsr_portdev_setup_no_publish (K : kenv) (H : host_calls) (w : World) (dev : Nat)
    (port : hsr_port) :
    ∀ p, kcall.list_add_tail_rcu p ∉ (hsr_portdev_setup K H w dev port).ev := by
  intro p
  unfold hsr_portdev_setup hsr_portdev_setup_rx
  dsimp only
  split_ifs <;> simp

theorem hsr_port_get_hsr_after_add (w : World) (hsr : Nat) (port : hsr_port) (pt : Nat) :
    hsr_port_get_hsr ((list_add_tail_rcu w hsr port).groups hsr) pt =
      (hsr_port_get_hsr (w.groups hsr) pt).or (if port.type = pt then some port else none) := by
  unfold hsr_port_get_hsr
  rw [list_add_tail_rcu_ports_same, List.find?_append]
  congr 1
  by_cases h : port.type = pt <;> simp [List.find?, h]

/-- The two ways `hsr_add_port` ends: without publication (no `list_add_tail_rcu`, the
state as before, a value returned), or through lines 192-199 with the role free, the
groups as before and, for a non-Master role, the device hooked. -/
theorem hsr_add_port_paths (K : kenv) (H : host_calls) (w : World) (hsr dev type : Nat) :
    ((∀ p, kcall.list_add_tail_rcu p ∉ (hsr_add_port K H w hsr dev type).ev) ∧
      (hsr_add_port K H w hsr dev type).w = w ∧
      (hsr_add_port K H w hsr dev type).ret ≠ none) ∨
    (∃ (w1 : World) (pre : List kcall),
      hsr_add_port K H w hsr dev type =
        hsr_add_port_publish K w1 hsr ⟨hsr, dev, type⟩ pre ∧
      hsr_port_get_hsr (w.groups hsr) type = none ∧
      w1.groups = w.groups ∧
      (type ≠ K.HSR_PT_MASTER →
        (w1.devs dev).rx_handler = some rx_handler_func_t.hsr_handle_frame)) := by
  have hchecked : ∀ pre, (∀ c ∈ pre, c = kcall.netdev_info dev) →
      (((∀ p, kcall.list_add_tail_rcu p ∉ (hsr_add_port_checked K H w hsr dev type pre).ev) ∧
        (hsr_add_port_checked K H w hsr dev type pre).w = w ∧
        (hsr_add_port_checked K H w hsr dev type pre).ret ≠ none) ∨
      (∃ (w1 : World) (pre2 : List kcall),
        hsr_add_port_checked K H w hsr dev type pre =
          hsr_add_port_publish K w1 hsr ⟨hsr, dev, type⟩ pre2 ∧
        hsr_port_get_hsr (w.groups hsr) type = none ∧
        w1.groups = w.groups ∧
        (type ≠ K.HSR_PT_MASTER →
          (w1.devs dev).rx_handler = some rx_handler_func_t.hsr_handle_frame))) := by
    intro pre hpre
    have hpre2 : ∀ p, kcall.list_add_tail_rcu p ∉ pre := by
      intro p hp
      have := hpre _ hp
      simp at this
    unfold hsr_add_port_checked
    cases hf : hsr_port_get_hsr (w.groups hsr) type with
    | some q => left; exact ⟨hpre2, rfl, by simp⟩
    | none =>
      dsimp only
      by_cases hk : H.kzalloc = true
      swap
      · left
        have hk2 : (!H.kzalloc) = true := by simpa using hk
        rw [if_pos hk2]
        refine ⟨?_, rfl, by simp⟩
        intro p hp
        simp only [List.mem_append, List.mem_singleton] at hp
        rcases hp with hp | hp
        · exact hpre2 p hp
        · exact absurd hp (by simp)
      · have hk2 : ¬ (!H.kzalloc) = true := by simp [hk]
        rw [if_neg hk2]
        by_cases ht : type = K.HSR_PT_MASTER
        · right
          rw [if_neg (not_not.mpr ht)]
          exact ⟨w, pre ++ [kcall.kzalloc], rfl, rfl, rfl, fun h => absurd ht h⟩
        · rw [if_pos ht]
          obtain ⟨s1, _, _, s4, s5⟩ := hsr_portdev_setup_state K H w dev ⟨hsr, dev, type⟩
          by_cases hres : (hsr_portdev_setup K H w dev ⟨hsr, dev, type⟩).res = 0
          · right
            rw [if_neg (not_not.mpr hres)]
            exact ⟨(hsr_portdev_setup K H w dev ⟨hsr, dev, type⟩).w,
              pre ++ [kcall.kzalloc] ++ (hsr_portdev_setup K H w dev ⟨hsr, dev, type⟩).ev,
              rfl, rfl, s1, fun _ => s4 hres⟩
          · left
            rw [if_pos hres]
            refine ⟨?_, s5 hres, by simp⟩
            intro p hp
            simp only [List.mem_append, List.mem_singleton] at hp
            rcases hp with ((hp | hp) | hp) | hp
            · exact hpre2 p hp
            · exact absurd hp (by simp)
            · exact hsr_portdev_setup_no_publish K H w dev _ p hp
            · exact absurd hp (by simp)
  unfold hsr_add_port
  by_cases ht : type = K.HSR_PT_MASTER
  · rw [if_neg (not_not.mpr ht)]
    exact hchecked [] (by simp)
  · rw [if_pos ht]
    dsimp only
    by_cases hc : (hsr_check_dev_ok K w dev).1 = 0
    · rw [if_neg (not_not.mpr hc)]
      exact hchecked _ (hsr_check_dev_ok_calls K w dev)
    · left
      rw [if_pos hc]
      refine ⟨?_, rfl, by simp⟩
      intro p hp
      have := hsr_check_dev_ok_calls K w dev _ hp
      simp at this

theorem hsr_add_port_publish_some (K : kenv) (w1 : World) (hsr : Nat) (port : hsr_port)
    (pre : List kcall) (m : hsr_port)
    (h : hsr_port_get_hsr ((list_add_tail_rcu w1 hsr port).groups hsr) K.HSR_PT_MASTER =
      some m) :
    hsr_add_port_publish K w1 hsr port pre =
      ⟨some 0, list_add_tail_rcu w1 hsr port,
        pre ++ [kcall.list_add_tail_rcu port, kcall.synchronize_rcu,
                kcall.netdev_update_features m.dev,
                kcall.dev_set_mtu m.dev
                  (K.hsr_get_max_mtu (list_add_tail_rcu w1 hsr port) hsr)]⟩ := by
  unfold hsr_add_port_publish
  simp [h]

theorem hsr_add_port_publish_none (K : kenv) (w1 : World) (hsr : Nat) (port : hsr_port)
    (pre : List kcall)
    (h : hsr_port_get_hsr ((list_add_tail_rcu w1 hsr port).groups hsr) K.HSR_PT_MASTER =
      none) :
    hsr_add_port_publish K w1 hsr port pre =
      ⟨none, list_add_tail_rcu w1 hsr port,
        pre ++ [kcall.list_add_tail_rcu port, kcall.synchronize_rcu]⟩ := by
  unfold hsr_add_port_publish
  simp [h]

/-- C12: take a call of hsr_add_port that reaches the publication step
(list_add_tail_rcu).  If the role added is Master, or the port list held a Master before
the call, the lookup hsr_port_get_hsr(hsr, HSR_PT_MASTER) made after the publication
returns a port, the call returns 0 and the feature and MTU updates are made on that
port's device.  If the role is not Master and the list held no Master, the lookup returns
no port and the call does not return (master->dev dereferences NULL), with the new port
already in the list and its device already hooked. -/
theorem hsr_add_port_master_lookup (K : kenv) (H : host_calls) (w : World)
    (hsr dev type : Nat)
    (hreach : ∃ p, kcall.list_add_tail_rcu p ∈ (hsr_add_port K H w hsr dev type).ev) :
    ((type = K.HSR_PT_MASTER ∨ ∃ m ∈ (w.groups hsr).ports, m.type = K.HSR_PT_MASTER) →
      ∃ master,
        hsr_port_get_hsr ((hsr_add_port K H w hsr dev type).w.groups hsr) K.HSR_PT_MASTER =
          some master ∧
        (hsr_add_port K H w hsr dev type).ret = some 0 ∧
        kcall.netdev_update_features master.dev ∈ (hsr_add_port K H w hsr dev type).ev ∧
        kcall.dev_set_mtu master.dev
          (K.hsr_get_max_mtu (hsr_add_port K H w hsr dev type).w hsr) ∈
            (hsr_add_port K H w hsr dev type).ev) ∧
    (type ≠ K.HSR_PT_MASTER → (∀ m ∈ (w.groups hsr).ports, m.type ≠ K.HSR_PT_MASTER) →
      hsr_port_get_hsr ((hsr_add_port K H w hsr dev type).w.groups hsr) K.HSR_PT_MASTER =
        none ∧
      (hsr_add_port K H w hsr dev type).ret = none ∧
      (⟨hsr, dev, type⟩ : hsr_port) ∈ ((hsr_add_port K H w hsr dev type).w.groups hsr).ports ∧
      hsr_port_exists ((hsr_add_port K H w hsr dev type).w.devs dev) = true) := by
  obtain ⟨p, hp⟩ := hreach
  rcases hsr_add_port_paths K H w hsr dev type with ⟨hno, _, _⟩ | ⟨w1, pre, e, _, hg, hhook⟩
  · exact absurd hp (hno p)
  have hlook := hsr_port_get_hsr_after_add w1 hsr ⟨hsr, dev, type⟩ K.HSR_PT_MASTER
  rw [hg] at hlook
  constructor
  · intro hpre
    have hsome : ∃ m, hsr_port_get_hsr ((list_add_tail_rcu w1 hsr ⟨hsr, dev, type⟩).groups hsr)
        K.HSR_PT_MASTER = some m := by
      rw [hlook]
      cases hold : hsr_port_get_hsr (w.groups hsr) K.HSR_PT_MASTER with
      | some q => exact ⟨q, rfl⟩
      | none =>
        rcases hpre with ht | hex
        · exact ⟨⟨hsr, dev, type⟩, by simp [ht]⟩
        · obtain ⟨q, hq, _, _⟩ := hsr_port_get_hsr_of_mem _ _ hex
          rw [hold] at hq
          exact absurd hq (by simp)
    obtain ⟨m, hm⟩ := hsome
    rw [e, hsr_add_port_publish_some K w1 hsr _ pre m hm]
    exact ⟨m, hm, rfl, by simp, by simp⟩
  · intro ht hnom
    have hnone : hsr_port_get_hsr ((list_add_tail_rcu w1 hsr ⟨hsr, dev, type⟩).groups hsr)
        K.HSR_PT_MASTER = none := by
      rw [hlook]
      cases hold : hsr_port_get_hsr (w.groups hsr) K.HSR_PT_MASTER with
      | some q =>
        obtain ⟨hq1, hq2⟩ := hsr_port_get_hsr_some _ _ _ hold
        exact absurd hq2 (hnom q hq1)
      | none => simp [ht]
    rw [e, hsr_add_port_publish_none K w1 hsr _ pre hnone]
    refine ⟨hnone, rfl, ?_, ?_⟩
    · rw [list_add_tail_rcu_ports_same]; simp
    · show hsr_port_exists (w1.devs dev) = true
      simp [hsr_port_exists, hhook ht]

/-- Witness of C12: attaching slave A on device 1 to a group that holds its Master
returns 0; attaching it to the empty group 0 of `world0` publishes the port and does not
return. -/
theorem hsr_add_port_master_lookup_witness :
    (∃ master,
      hsr_port_get_hsr ((hsr_add_port linux host_ok
          (hsr_add_port linux host_ok world_m 0 0 4).w 0 1 1).w.groups 0)
        linux.HSR_PT_MASTER = some master ∧
      (hsr_add_port linux host_ok (hsr_add_port linux host_ok world_m 0 0 4).w 0 1 1).ret =
        some 0) ∧
    (hsr_add_port linux host_ok world0 0 1 1).ret = none ∧
    ((hsr_add_port linux host_ok world0 0 1 1).w.groups 0).ports = [⟨0, 1, 1⟩] :=
  have h1 := (hsr_add_port_master_lookup linux host_ok
    (hsr_add_port linux host_ok world_m 0 0 4).w 0 1 1 ⟨⟨0, 1, 1⟩, by decide⟩).1
    (Or.inr ⟨⟨0, 0, 4⟩, by decide, by decide⟩)
  have h2 := (hsr_add_port_master_lookup linux host_ok world0 0 1 1
    ⟨⟨0, 1, 1⟩, by decide⟩).2 (by decide) (by decide)
  ⟨h1.imp (fun _ h => ⟨h.1, h.2.1⟩), h2.2.1, by decide⟩

/-! ## The Master and its Slaves -/

theorem find_erase_of_ne (pt : Nat) (a m : hsr_port) (hne : a ≠ m) :
    ∀ l : List hsr_port, l.find? (fun p => decide (p.type = pt)) = some m →
      (l.erase a).find? (fun p => decide (p.type = pt)) = some m := by
  intro l
  induction l with
  | nil => intro h; simp at h
  | cons x xs ih =>
    intro h
    by_cases hx : x.type = pt
    · have hxm : x = m := by
        simpa [List.find?, hx] using h
      subst hxm
      have hxa : ¬ x = a := fun h2 => hne h2.symm
      rw [List.erase_cons_tail (by simpa using hxa)]
      simp [List.find?, hx]
    · have hxs : xs.find? (fun p => decide (p.type = pt)) = some m := by
        simpa [List.find?, hx] using h
      by_cases hxa : x = a
      · subst hxa
        rw [List.erase_cons_head]
        exact hxs
      · rw [List.erase_cons_tail (by simpa using hxa)]
        simp only [List.find?, hx, decide_False]
        exact ih hxs

/-- Detaching a port other than the Master leaves the Master the result of the lookup. -/
theorem hsr_del_port_keeps_lookup (K : kenv) (w : World) (port master : hsr_port)
    (hm : hsr_port_get_hsr (w.groups port.hsr) K.HSR_PT_MASTER = some master)
    (hne : port ≠ master) :
    hsr_port_get_hsr ((hsr_del_port K w port).w.groups port.hsr) K.HSR_PT_MASTER =
      some master := by
  obtain ⟨hgr, _, _⟩ := hsr_del_port_state K w port
  unfold hsr_port_get_hsr at hm ⊢
  rw [hgr, list_del_rcu_ports]
  exact find_erase_of_ne _ port master hne _ hm

theorem master_present_add (K : kenv) (H : host_calls) (w : World) (hsr dev type : Nat)
    (hinv : master_present K w) (hret : (hsr_add_port K H w hsr dev type).ret ≠ none) :
    master_present K (hsr_add_port K H w hsr dev type).w := by
  rcases hsr_add_port_paths K H w hsr dev type with ⟨_, e, _⟩ | ⟨w1, pre, e, _, hg, _⟩
  · rw [e]; exact hinv
  cases hl : hsr_port_get_hsr ((list_add_tail_rcu w1 hsr ⟨hsr, dev, type⟩).groups hsr)
      K.HSR_PT_MASTER with
  | none =>
    rw [e, hsr_add_port_publish_none K w1 hsr _ pre hl] at hret
    exact absurd rfl hret
  | some m =>
    rw [e, hsr_add_port_publish_some K w1 hsr _ pre m hl]
    intro g hg2
    by_cases h : g = hsr
    · subst h; exact ⟨m, hl⟩
    · have hsame : (list_add_tail_rcu w1 hsr ⟨hsr, dev, type⟩).groups g = w.groups g := by
        rw [← hg]
        simp [list_add_tail_rcu, World.set_group_groups_other _ _ _ _ h]
      change ((list_add_tail_rcu w1 hsr ⟨hsr, dev, type⟩).groups g).ports ≠ [] at hg2
      change ∃ m, hsr_port_get_hsr ((list_add_tail_rcu w1 hsr ⟨hsr, dev, type⟩).groups g)
        K.HSR_PT_MASTER = some m
      rw [hsame] at hg2 ⊢
      exact hinv g hg2

theorem master_present_del (K : kenv) (w : World) (port : hsr_port)
    (hinv : master_present K w) (hmem : port ∈ (w.groups port.hsr).ports)
    (hlast : port.type = K.HSR_PT_MASTER → (w.groups port.hsr).ports = [port]) :
    master_present K (hsr_del_port K w port).w := by
  obtain ⟨hgr, _, _⟩ := hsr_del_port_state K w port
  intro g hg
  by_cases h : g = port.hsr
  · subst h
    obtain ⟨m, hm⟩ := hinv port.hsr (List.ne_nil_of_mem hmem)
    have hne : port ≠ m := by
      intro hpm
      have ht : port.type = K.HSR_PT_MASTER := by
        rw [hpm]; exact (hsr_port_get_hsr_some _ _ _ hm).2
      rw [hgr, list_del_rcu_ports, hlast ht] at hg
      simp at hg
    exact ⟨m, hsr_del_port_keeps_lookup K w port m hm hne⟩
  · have hsame : (hsr_del_port K w port).w.groups g = w.groups g := by
      rw [hgr]
      simp [list_del_rcu, World.set_group_groups_other _ _ _ _ h]
    rw [hsame] at hg ⊢
    exact hinv g hg

theorem master_present_run (K : kenv) (ops : List hsr_op) :
    ∀ w : World, master_present K w → ops_slaves_first K w ops →
      master_present K (run_ops K w ops) := by
  induction ops with
  | nil => intro w hinv _; exact hinv
  | cons op rest ih =>
    intro w hinv hok
    cases op with
    | add H hsr dev type =>
      obtain ⟨hret, hrest⟩ := hok
      have hstep := master_present_add K H w hsr dev type hinv hret
      unfold run_ops
      cases hr : (hsr_add_port K H w hsr dev type).ret with
      | none => exact absurd hr hret
      | some r => exact ih _ hstep hrest
    | del port =>
      obtain ⟨hmem, hlast, hrest⟩ := hok
      unfold run_ops
      exact ih _ (master_present_del K w port hinv hmem hlast) hrest

/-- Counterexample to C11 as stated: in `world_ab` the list of group 0 holds the Master
and the slaves A and B; hsr_del_port applied to the Master is not rejected, it unlinks
the Master and leaves the two slaves in a list without Master.  The same through calls
only: attach Master and slave A, detach the Master. -/
theorem master_outlives_slaves_counterexample :
    ((world_ab 1 false).groups 0).ports = [port_m, port_a, port_b] ∧
    hsr_port_get_hsr ((world_ab 1 false).groups 0) linux.HSR_PT_MASTER = some port_m ∧
    (((hsr_del_port linux (world_ab 1 false) port_m).w).groups 0).ports = [port_a, port_b] ∧
    hsr_port_get_hsr (((hsr_del_port linux (world_ab 1 false) port_m).w).groups 0)
      linux.HSR_PT_MASTER = none ∧
    (hsr_del_port linux (world_ab 1 false) port_m).ev =
      [kcall.list_del_rcu port_m, kcall.synchronize_rcu, kcall.kfree port_m] ∧
    ((run_ops linux world_m
      [hsr_op.add host_ok 0 0 4, hsr_op.add host_ok 0 1 1, hsr_op.del ⟨0, 0, 4⟩]).groups
        0).ports = [⟨0, 1, 1⟩] := by
  decide

/-- C11, amended: in every state in which the port list holds the Master, no call of
hsr_del_port applied to a port other than the Master removes the Master from the list:
the Master stays in the list and stays the result of the Master lookup.  Hence in every
state reached from empty port lists through returning hsr_add_port calls and
hsr_del_port calls on member ports in which a Master is detached only as the last port
of its list, every list that holds any port holds the Master. -/
theorem master_outlives_slaves (K : kenv) (w : World) (port master : hsr_port)
    (hm : hsr_port_get_hsr (w.groups port.hsr) K.HSR_PT_MASTER = some master)
    (hne : port ≠ master) :
    hsr_port_get_hsr ((hsr_del_port K w port).w.groups port.hsr) K.HSR_PT_MASTER =
      some master ∧
    master ∈ ((hsr_del_port K w port).w.groups port.hsr).ports ∧
    master.type = K.HSR_PT_MASTER ∧
    (∀ (w0 : World) (ops : List hsr_op), (∀ g, (w0.groups g).ports = []) →
      ops_slaves_first K w0 ops →
      ∀ g, ((run_ops K w0 ops).groups g).ports ≠ [] →
        ∃ m ∈ ((run_ops K w0 ops).groups g).ports, m.type = K.HSR_PT_MASTER) := by
  have h1 := hsr_del_port_keeps_lookup K w port master hm hne
  obtain ⟨h2, h3⟩ := hsr_port_get_hsr_some _ _ _ h1
  refine ⟨h1, h2, h3, ?_⟩
  intro w0 ops hempty hok g hg
  have hinv0 : master_present K w0 := by
    intro g0 hg0
    exact absurd (hempty g0) hg0
  obtain ⟨m, hmm⟩ := master_present_run K ops w0 hinv0 hok g hg
  obtain ⟨a, b⟩ := hsr_port_get_hsr_some _ _ _ hmm
  exact ⟨m, a, b⟩

/-- Witness of the amended C11: detaching slave B from group 0 of `world_ab` keeps the
Master, and so does the run of `slaves_first_ops` from `world_m`. -/
theorem master_outlives_slaves_witness :
    hsr_port_get_hsr ((hsr_del_port linux (world_ab 1 false) port_b).w.groups 0)
      linux.HSR_PT_MASTER = some port_m ∧
    (∃ m ∈ ((run_ops linux world_m slaves_first_ops).groups 0).ports,
      m.type = linux.HSR_PT_MASTER) :=
  have h := master_outlives_slaves linux (world_ab 1 false) port_b port_m
    (by decide) (by decide)
  have r1 : (hsr_add_port linux host_ok world_m 0 0 4).ret = some 0 := by decide
  have r2 : (hsr_add_port linux host_ok
      (hsr_add_port linux host_ok world_m 0 0 4).w 0 1 1).ret = some 0 := by decide
  have r3 : (hsr_add_port linux host_ok (hsr_add_port linux host_ok
      (hsr_add_port linux host_ok world_m 0 0 4).w 0 1 1).w 0 2 2).ret = some 0 := by
    decide
  have hok : ops_slaves_first linux world_m slaves_first_ops := by
    simp only [slaves_first_ops, ops_slaves_first, r1, r2, r3]
    decide
  ⟨h.1, h.2.2.2 world_m slaves_first_ops (fun _ => rfl) hok 0 (by decide)⟩

/-! ## Attach followed by detach -/

theorem hsr_portdev_setup_res_zero (K : kenv) (H : host_calls) (w : World) (dev : Nat)
    (port : hsr_port) (h : (hsr_portdev_setup K H w dev port).res = 0) :
    ((w.groups port.hsr).rx_offloaded = true ∨ H.dev_set_promiscuity = 0) ∧
    H.netdev_rx_handler_register = 0 ∧ (w.devs dev).rx_handler = none := by
  by_cases hp : (w.groups port.hsr).rx_offloaded = true ∨ H.dev_set_promiscuity = 0
  · have hr : H.netdev_rx_handler_register = 0 := by
      by_contra hr
      rw [(hsr_portdev_setup_register_failed K H w dev port hp hr).1] at h
      exact hr h
    refine ⟨hp, hr, ?_⟩
    by_contra hb
    rw [(hsr_portdev_setup_busy K H w dev port hp hr hb).1] at h
    exact busy_code_ne_zero K h
  · exfalso
    have ho : (w.groups port.hsr).rx_offloaded = false := by
      cases h2 : (w.groups port.hsr).rx_offloaded with
      | true => exact absurd (Or.inl h2) hp
      | false => rfl
    have hp1 : H.dev_set_promiscuity ≠ 0 := fun h2 => hp (Or.inr h2)
    rw [(hsr_portdev_setup_promiscuity_failed K H w dev port ho hp1).1] at h
    exact hp1 h

/-- A non-Master attach that passed the check and found the role free returns 0 only
after a successful allocation and device setup; its state is the published one. -/
theorem hsr_add_port_returned_zero (K : kenv) (H : host_calls) (w : World)
    (hsr dev type : Nat) (hE : K.ENOMEM ≠ 0) (htype : type ≠ K.HSR_PT_MASTER)
    (hchk : (hsr_check_dev_ok K w dev).1 = 0)
    (hf : hsr_port_get_hsr (w.groups hsr) type = none)
    (hret : (hsr_add_port K H w hsr dev type).ret = some 0) :
    (hsr_portdev_setup K H w dev ⟨hsr, dev, type⟩).res = 0 ∧
    (hsr_add_port K H w hsr dev type).w =
      list_add_tail_rcu (hsr_portdev_setup K H w dev ⟨hsr, dev, type⟩).w hsr
        ⟨hsr, dev, type⟩ := by
  have e : hsr_add_port K H w hsr dev type =
      hsr_add_port_checked K H w hsr dev type (hsr_check_dev_ok K w dev).2 := by
    unfold hsr_add_port
    rw [if_pos htype]
    dsimp only
    rw [if_neg (not_not.mpr hchk)]
  rw [e] at hret ⊢
  unfold hsr_add_port_checked at hret ⊢
  rw [hf] at hret ⊢
  dsimp only at hret ⊢
  by_cases hk : (!H.kzalloc) = true
  · rw [if_pos hk] at hret
    exfalso
    have : -K.ENOMEM = 0 := Option.some.inj hret
    exact hE (by simpa using this)
  rw [if_neg hk] at hret ⊢
  rw [if_pos htype] at hret ⊢
  by_cases hres : (hsr_portdev_setup K H w dev ⟨hsr, dev, type⟩).res = 0
  · rw [if_neg (not_not.mpr hres)]
    exact ⟨hres, hsr_add_port_publish_w K _ hsr _ _⟩
  · rw [if_pos hres] at hret
    exact absurd (Option.some.inj hret) hres

theorem hsr_del_port_w_non_master (K : kenv) (w : World) (port : hsr_port)
    (ht : port.type ≠ K.HSR_PT_MASTER) :
    (hsr_del_port K w port).w =
      dev_put
        (if (w.groups port.hsr).rx_offloaded then
          netdev_rx_handler_unregister (list_del_rcu w port) port.dev
         else (dev_set_promiscuity 0
          (netdev_rx_handler_unregister (list_del_rcu w port) port.dev) port.dev (-1)).2)
        port.dev := by
  have hne : some port ≠ hsr_port_get_hsr (w.groups port.hsr) K.HSR_PT_MASTER := by
    intro h
    exact ht (hsr_port_get_hsr_some _ _ _ h.symm).2
  have ho : ((netdev_rx_handler_unregister (list_del_rcu w port) port.dev).groups
      port.hsr).rx_offloaded = (w.groups port.hsr).rx_offloaded := by
    simp [netdev_rx_handler_unregister, World.set_dev_groups, list_del_rcu_rx_offloaded]
  cases hoff : (w.groups port.hsr).rx_offloaded with
  | true =>
    rw [hoff] at ho
    simp [hsr_del_port, hne, ho]
  | false =>
    rw [hoff] at ho
    simp [hsr_del_port, hne, ho]

/-- The state after a successful non-Master attach followed by the detach of the new
port: the device had no receive handler before the attach, the groups are as before,
and the record of the device is the one before the attach with no handler, no handler
data and LRO off. -/
theorem round_trip_eq (K : kenv) (H : host_calls) (w : World) (hsr dev type : Nat)
    (hE : K.ENOMEM ≠ 0) (htype : type ≠ K.HSR_PT_MASTER)
    (hfree : ∀ p ∈ (w.groups hsr).ports, p.type ≠ type)
    (hchk : (hsr_check_dev_ok K w dev).1 = 0)
    (hret : (hsr_add_port K H w hsr dev type).ret = some 0) :
    (w.devs dev).rx_handler = none ∧
    (∀ g, (round_trip K H w hsr dev type).groups g = w.groups g) ∧
    (round_trip K H w hsr dev type).devs dev =
      { w.devs dev with rx_handler := none, rx_handler_data := none, lro := false } := by
  have hf : hsr_port_get_hsr (w.groups hsr) type = none := by
    cases h : hsr_port_get_hsr (w.groups hsr) type with
    | none => rfl
    | some q =>
      obtain ⟨a, b⟩ := hsr_port_get_hsr_some _ _ _ h
      exact absurd b (hfree q a)
  obtain ⟨hres, hw2⟩ := hsr_add_port_returned_zero K H w hsr dev type hE htype hchk hf hret
  obtain ⟨hp, hr, hb⟩ := hsr_portdev_setup_res_zero K H w dev ⟨hsr, dev, type⟩ hres
  obtain ⟨_, hsw⟩ := hsr_portdev_setup_ok_eq K H w dev ⟨hsr, dev, type⟩ hp hr hb
  have hnotin : (⟨hsr, dev, type⟩ : hsr_port) ∉ (w.groups hsr).ports :=
    fun h => hfree _ h rfl
  have herase : ((w.groups hsr).ports ++ [(⟨hsr, dev, type⟩ : hsr_port)]).erase
      ⟨hsr, dev, type⟩ = (w.groups hsr).ports := by
    rw [List.erase_append_right _ hnotin]
    simp
  refine ⟨hb, ?_⟩
  unfold round_trip
  rw [hsr_del_port_w_non_master K _ ⟨hsr, dev, type⟩ htype, hw2, hsw]
  cases ho : (w.groups hsr).rx_offloaded with
  | true =>
    refine ⟨?_, ?_⟩
    · intro g
      by_cases hg : g = hsr
      · subst hg
        simp [ho, hb, dev_put, netdev_rx_handler_unregister, list_del_rcu, list_add_tail_rcu,
          dev_disable_lro, netdev_rx_handler_register, dev_hold, World.set_dev_groups,
          World.set_group_groups_same, World.set_dev, World.set_group, herase]
        rcases hwg : w.groups g with ⟨a, b, c, d, e⟩
        rw [hwg] at ho
        simp only at ho
        rw [ho]
      · simp [ho, hb, dev_put, netdev_rx_handler_unregister, list_del_rcu, list_add_tail_rcu,
          dev_disable_lro, netdev_rx_handler_register, dev_hold, World.set_dev,
          World.set_group, Function.update_noteq hg]
    · simp [ho, hb, dev_put, netdev_rx_handler_unregister, list_del_rcu, list_add_tail_rcu,
        dev_disable_lro, netdev_rx_handler_register, dev_hold, World.set_dev,
        World.set_group]
  | false =>
    refine ⟨?_, ?_⟩
    · intro g
      by_cases hg : g = hsr
      · subst hg
        simp [ho, hb, dev_put, dev_set_promiscuity, netdev_rx_handler_unregister,
          list_del_rcu, list_add_tail_rcu, dev_disable_lro, netdev_rx_handler_register,
          dev_hold, World.set_dev_groups, World.set_group_groups_same, World.set_dev,
          World.set_group, herase]
        rcases hwg : w.groups g with ⟨a, b, c, d, e⟩
        rw [hwg] at ho
        simp only at ho
        rw [ho]
      · simp [ho, hb, dev_put, dev_set_promiscuity, netdev_rx_handler_unregister,
          list_del_rcu, list_add_tail_rcu, dev_disable_lro, netdev_rx_handler_register,
          dev_hold, World.set_dev, World.set_group, Function.update_noteq hg]
    · simp [ho, hb, dev_put, dev_set_promiscuity, netdev_rx_handler_unregister,
        list_del_rcu, list_add_tail_rcu, dev_disable_lro, netdev_rx_handler_register,
        dev_hold, World.set_dev, World.set_group]

/-- C14: for a group that has a Master, a non-Master role R with no port in the list and
a device that passes hsr_check_dev_ok, whatever rx_offloaded is: if hsr_add_port(hsr,
dev, R) returns 0 and hsr_del_port is applied to the port it added, then the port list
of the group is the original list (same ports, same order) and the device has its
reference count, its promiscuity count and its receive handler (dev->rx_handler, hence
also the answers of hsr_port_exists and hsr_port_get_rcu) as before the attach: the
handler was NULL before, since the registration succeeded, and is NULL again. -/
theorem attach_detach_round_trip (K : kenv) (H : host_calls) (w : World)
    (hsr dev type : Nat)
    (hE1 : K.ENOMEM ≠ 0) (hE2 : K.EINVAL ≠ 0)
    (hmaster : ∃ m ∈ (w.groups hsr).ports, m.type = K.HSR_PT_MASTER)
    (htype : type ≠ K.HSR_PT_MASTER)
    (hfree : ∀ p ∈ (w.groups hsr).ports, p.type ≠ type)
    (hchk : (hsr_check_dev_ok K w dev).1 = 0)
    (hret : (hsr_add_port K H w hsr dev type).ret = some 0) :
    (⟨hsr, dev, type⟩ : hsr_port) ∈ ((hsr_add_port K H w hsr dev type).w.groups hsr).ports ∧
    ((round_trip K H w hsr dev type).groups hsr).ports = (w.groups hsr).ports ∧
    (∃ m ∈ ((round_trip K H w hsr dev type).groups hsr).ports, m.type = K.HSR_PT_MASTER) ∧
    ((round_trip K H w hsr dev type).groups hsr).rx_offloaded =
      (w.groups hsr).rx_offloaded ∧
    ((round_trip K H w hsr dev type).devs dev).refcnt = (w.devs dev).refcnt ∧
    ((round_trip K H w hsr dev type).devs dev).promiscuity = (w.devs dev).promiscuity ∧
    ((round_trip K H w hsr dev type).devs dev).rx_handler = (w.devs dev).rx_handler ∧
    hsr_port_exists ((round_trip K H w hsr dev type).devs dev) =
      hsr_port_exists (w.devs dev) ∧
    hsr_port_get_rcu ((round_trip K H w hsr dev type).devs dev) =
      hsr_port_get_rcu (w.devs dev) ∧
    ((round_trip K H w hsr dev type).devs dev).rx_handler = none ∧
    ((round_trip K H w hsr dev type).devs dev).rx_handler_data = none := by
  obtain ⟨hb, hg, hd⟩ := round_trip_eq K H w hsr dev type hE1 htype hfree hchk hret
  have hf : hsr_port_get_hsr (w.groups hsr) type = none := by
    cases h : hsr_port_get_hsr (w.groups hsr) type with
    | none => rfl
    | some q =>
      obtain ⟨a, b⟩ := hsr_port_get_hsr_some _ _ _ h
      exact absurd b (hfree q a)
  obtain ⟨_, hw2⟩ := hsr_add_port_returned_zero K H w hsr dev type hE1 htype hchk hf hret
  have helig : eligible K (w.devs dev) :=
    (eligible_iff_not_ineligible K _).mpr (hsr_check_dev_ok_zero K w dev hE2 hchk)
  have hbefore : hsr_port_exists (w.devs dev) = false := helig.2.2.2.2.1
  have hrcu : hsr_port_get_rcu (w.devs dev) = none := by
    simp [hsr_port_get_rcu, hbefore]
  refine ⟨?_, ?_, ?_, ?_, ?_, ?_, ?_, ?_, ?_, ?_, ?_⟩
  · rw [hw2, list_add_tail_rcu_ports_same]; simp
  · rw [hg hsr]
  · rw [hg hsr]; exact hmaster
  · rw [hg hsr]
  · rw [hd]
  · rw [hd]
  · rw [hd, hb]
  · rw [hd, hbefore]; simp [hsr_port_exists]
  · rw [hd, hrcu]; simp [hsr_port_get_rcu, hsr_port_exists]
  · rw [hd]
  · rw [hd]

/-- Witness of C14: device 5 attached to group 0 of `world_ab` with role 3 and detached
again, without and with receive offload.  On `world_busy`, where device 5 has another
receive handler, the attach does not return 0. -/
theorem attach_detach_round_trip_witness :
    ((round_trip linux host_ok (world_ab 1 false) 0 5 3).groups 0).ports =
      [port_m, port_a, port_b] ∧
    ((round_trip linux host_ok (world_ab 1 false) 0 5 3).devs 5).promiscuity = 0 ∧
    ((round_trip linux host_ok (world_ab 1 false) 0 5 3).devs 5).rx_handler =
      ((world_ab 1 false).devs 5).rx_handler ∧
    ((round_trip linux host_ok (world_ab 1 true) 0 5 3).groups 0).ports =
      [port_m, port_a, port_b] ∧
    ((round_trip linux host_ok (world_ab 1 true) 0 5 3).devs 5).refcnt = 0 ∧
    (hsr_check_dev_ok linux world_busy 5).1 = 0 ∧
    (hsr_add_port linux host_ok world_busy 0 5 3).ret = some (-16) :=
  have h1 := attach_detach_round_trip linux host_ok (world_ab 1 false) 0 5 3
    (by decide) (by decide) ⟨port_m, by decide, by decide⟩ (by decide) (by decide)
    (by decide) (by decide)
  have h2 := attach_detach_round_trip linux host_ok (world_ab 1 true) 0 5 3
    (by decide) (by decide) ⟨port_m, by decide, by decide⟩ (by decide) (by decide)
    (by decide) (by decide)
  ⟨h1.2.1, h1.2.2.2.2.2.1, h1.2.2.2.2.2.2.1, h2.2.1, h2.2.2.2.2.1, by decide, by decide⟩

end Hsr
